import Mathlib

/-!
# libmv `Reconstruction` store: embedding and verified properties

Shallow embedding of `src/libmv/multiview/reconstruction.h` (class `Reconstruction`).

* A `std::map<K, V *>` is its sequence of entries in increasing key order.
* A raw pointer is an address, `NULL` being address `0`.
* Every `delete` expression is made observable through a log of the instances it
  destroyed, kept next to the object in `World`.
* The two-view bootstrap is only declared in the header; it is modelled from the spec,
  on top of the members of `Reconstruction`, with the estimators as parameters.
-/

namespace libmv

/-! ## Identifiers and pointers -/

/-- Modelled from the spec: `Matches::ImageID` is declared in
`libmv/correspondence/matches.h`, which is not part of the sources at hand; the spec
describes the identifiers as "integer-like". -/
abbrev ImageID := Int

/-- Modelled from the spec: `Matches::TrackID`, declared in the same absent header,
"integer-like" as well. -/
abbrev TrackID := Int

/-- Source: `typedef Matches::ImageID CameraID;` -/
abbrev CameraID := ImageID

/-- Source: `typedef Matches::TrackID StructureID;` -/
abbrev StructureID := TrackID

/-- A raw pointer value (`Camera *`, `Structure *`, `Feature *`): an address. -/
abbrev Ptr := Nat

/-- The null pointer. -/
def NULL : Ptr := 0

/-- The effect of the expression `delete p` on the log of destroyed instances: a null
operand has no effect, any other operand is destroyed and therefore logged. -/
def cppDelete (p : Ptr) (log : List Ptr) : List Ptr :=
  if p = NULL then log else log ++ [p]

/-! ## `std::map<K, V *>` -/

/-- The value of a `std::map<K, V *>`: its entries `(first, second)` as the iteration
from `begin()` to `end()` meets them. -/
abbrev StdMap := List (Int × Ptr)

namespace StdMap

/-- The class invariant of `std::map`: keys strictly increasing along the iteration,
hence unique. -/
abbrev WF (m : StdMap) : Prop := (m.map Prod.fst).Pairwise (fun a b => a < b)

/-- Member `find(id)`: `some second` for the entry the returned iterator designates,
`none` when the iterator is `end()`. -/
def find : StdMap → Int → Option Ptr
  | [], _ => none
  | (k, v) :: rest, id => if id = k then some v else find rest id

/-- Assignment `it->second = v` through the iterator `it = find(id)`, `it != end()`. -/
def assign : StdMap → Int → Ptr → StdMap
  | [], _, _ => []
  | (k, w) :: rest, id, v =>
    if id = k then (k, v) :: rest else (k, w) :: assign rest id v

/-- Statement `m[id] = v`: `operator[]` designates the entry of key `id`, inserting it
at its place in key order when there is none, and the assignment stores `v` there. -/
def subscriptAssign : StdMap → Int → Ptr → StdMap
  | [], id, v => [(id, v)]
  | (k, w) :: rest, id, v =>
    if id < k then (id, v) :: (k, w) :: rest
    else if id = k then (k, v) :: rest
    else (k, w) :: subscriptAssign rest id v

/-- Member `size()`. -/
def size (m : StdMap) : Nat := m.length

/-- Member `clear()`: the empty map. -/
def clear (_m : StdMap) : StdMap := []

end StdMap

/-! ## The correspondence collaborator -/

/-- Modelled from the spec: class `Matches` (`libmv/correspondence/matches.h`, not part
of the sources at hand) "maps (image id, track id) to a 2D observation"; an observation
is kept as the pointer to its feature, as `matches->Insert(n, track_id, feature)` in the
test passes it. -/
structure Matches where
  observations : List ((ImageID × TrackID) × Ptr)
  deriving DecidableEq, Repr

/-! ## Class `Reconstruction` -/

/-- The private members of `Reconstruction`. -/
structure Reconstruction where
  cameras_ : StdMap
  structures_ : StdMap
  matches_ : Matches
  deriving DecidableEq, Repr

/-- A `Reconstruction` object together with the log of the camera and structure
instances destroyed by `delete` so far, oldest first. -/
structure World where
  store : Reconstruction
  deletedCameras : List Ptr
  deletedStructures : List Ptr
  deriving DecidableEq, Repr

/-- Source: `Reconstruction() {}`: the members are default-constructed, nothing has been
deleted. -/
def World.fresh : World :=
  { store := { cameras_ := [], structures_ := [], matches_ := { observations := [] } },
    deletedCameras := [], deletedStructures := [] }

/-- Source: `~Reconstruction() {}`. The body is empty, and destroying the members
`cameras_` and `structures_` frees the nodes of the maps, never the pointees. The result
is the log of destroyed instances once the object is gone. -/
def destroyReconstruction (w : World) : List Ptr × List Ptr :=
  (w.deletedCameras, w.deletedStructures)

/-- Source: `void InsertCamera(CameraID id, Camera *camera)`. -/
def InsertCamera (w : World) (id : CameraID) (camera : Ptr) : World :=
  match StdMap.find w.store.cameras_ id with
  | some second =>
    { w with
      deletedCameras := cppDelete second w.deletedCameras
      store := { w.store with cameras_ := StdMap.assign w.store.cameras_ id camera } }
  | none =>
    { w with
      store := { w.store with cameras_ := StdMap.subscriptAssign w.store.cameras_ id camera } }

/-- Source: `void InsertTrack(StructureID id, Structure *structure)`. -/
def InsertTrack (w : World) (id : StructureID) (structure_ : Ptr) : World :=
  match StdMap.find w.store.structures_ id with
  | some second =>
    { w with
      deletedStructures := cppDelete second w.deletedStructures
      store := { w.store with structures_ := StdMap.assign w.store.structures_ id structure_ } }
  | none =>
    { w with
      store := { w.store with
        structures_ := StdMap.subscriptAssign w.store.structures_ id structure_ } }

/-- Source: `bool ImageHasCamera(CameraID id) const`. -/
def ImageHasCamera (r : Reconstruction) (id : CameraID) : Bool :=
  (StdMap.find r.cameras_ id).isSome

/-- Source: `bool TrackHasStructure(StructureID id) const`. -/
def TrackHasStructure (r : Reconstruction) (id : StructureID) : Bool :=
  (StdMap.find r.structures_ id).isSome

/-- Source: `Camera * GetCamera(CameraID id) const`. -/
def GetCamera (r : Reconstruction) (id : CameraID) : Ptr :=
  match StdMap.find r.cameras_ id with
  | some second => second
  | none => NULL

/-- Source: `Structure * GetStructure(StructureID id) const`. -/
def GetStructure (r : Reconstruction) (id : StructureID) : Ptr :=
  match StdMap.find r.structures_ id with
  | some second => second
  | none => NULL

/-- The loop `for (it = m.begin(); it != m.end(); ++it) delete it->second;`. -/
def deleteAll (m : StdMap) (log : List Ptr) : List Ptr :=
  m.foldl (fun acc entry => cppDelete entry.2 acc) log

/-- Source: `void ClearCamerasMap()`. -/
def ClearCamerasMap (w : World) : World :=
  { w with
    deletedCameras := deleteAll w.store.cameras_ w.deletedCameras
    store := { w.store with cameras_ := StdMap.clear w.store.cameras_ } }

/-- Source: `void ClearStructuresMap()`. -/
def ClearStructuresMap (w : World) : World :=
  { w with
    deletedStructures := deleteAll w.store.structures_ w.deletedStructures
    store := { w.store with structures_ := StdMap.clear w.store.structures_ } }

/-- Source: `size_t GetNumberCameras() const`. -/
def GetNumberCameras (r : Reconstruction) : Nat := StdMap.size r.cameras_

/-- Source: `size_t GetNumberStructures() const`. -/
def GetNumberStructures (r : Reconstruction) : Nat := StdMap.size r.structures_

/-- Source: `const Matches & matches() const` (`matches` is a reserved word here). -/
def matchesOf (r : Reconstruction) : Matches := r.matches_

/-! ## Sequences of calls -/

/-- A call of one of the mutating members of `Reconstruction`. -/
inductive Call where
  | insertCamera (id : CameraID) (camera : Ptr)
  | insertTrack (id : StructureID) (structure_ : Ptr)
  | clearCamerasMap
  | clearStructuresMap
  deriving DecidableEq, Repr

/-- The effect of one call. -/
def Call.exec : Call → World → World
  | .insertCamera id camera, w => InsertCamera w id camera
  | .insertTrack id structure_, w => InsertTrack w id structure_
  | .clearCamerasMap, w => ClearCamerasMap w
  | .clearStructuresMap, w => ClearStructuresMap w

/-- The effect of a sequence of calls, first call first. -/
def run : List Call → World → World
  | [], w => w
  | c :: rest, w => run rest (c.exec w)

/-- The non-null camera pointers handed to `InsertCamera` along a sequence of calls. -/
def insertedCameras : List Call → List Ptr
  | [] => []
  | .insertCamera _ camera :: rest =>
    if camera = NULL then insertedCameras rest else camera :: insertedCameras rest
  | _ :: rest => insertedCameras rest

/-- The non-null structure pointers handed to `InsertTrack` along a sequence of calls. -/
def insertedStructures : List Call → List Ptr
  | [] => []
  | .insertTrack _ structure_ :: rest =>
    if structure_ = NULL then insertedStructures rest
    else structure_ :: insertedStructures rest
  | _ :: rest => insertedStructures rest

/-- The instances a map holds: the non-null `second` of its entries, in key order. -/
def heldInstances (m : StdMap) : List Ptr :=
  (m.map Prod.snd).filter (fun p => p ≠ NULL)

/-- The instance a pointer designates, as a list: none for `NULL`, the pointee otherwise. -/
def pointee (p : Ptr) : List Ptr := if p = NULL then [] else [p]

/-! ## Predicates used by the statements and proofs -/

/-- No entry of the camera map holds a null pointer. -/
def CamerasNonNull (w : World) : Prop := ∀ e ∈ w.store.cameras_, e.2 ≠ NULL

/-- What `InsertCamera` or `InsertTrack` releases, given the result of `find`. -/
def releasedByInsert : Option Ptr → List Ptr
  | some old => pointee old
  | none => []

/-- Both maps of the store satisfy the invariant of `std::map`. -/
def StoreWF (w : World) : Prop :=
  StdMap.WF w.store.cameras_ ∧ StdMap.WF w.store.structures_

/-! ## The store as a finite map with last-write-wins, in the words of the claims -/

/-- Reading the calls most recent first: the camera passed to the most recent
`InsertCamera(id, ·)` that no `ClearCamerasMap()` follows, if there is one. -/
def lastCameraWrite (id : CameraID) : List Call → Option Ptr
  | [] => none
  | .insertCamera j camera :: earlier =>
    if j = id then some camera else lastCameraWrite id earlier
  | .insertTrack _ _ :: earlier => lastCameraWrite id earlier
  | .clearCamerasMap :: _ => none
  | .clearStructuresMap :: earlier => lastCameraWrite id earlier

/-- Reading the calls most recent first: the structure passed to the most recent
`InsertTrack(id, ·)` that no `ClearStructuresMap()` follows, if there is one. -/
def lastStructureWrite (id : StructureID) : List Call → Option Ptr
  | [] => none
  | .insertTrack j structure_ :: earlier =>
    if j = id then some structure_ else lastStructureWrite id earlier
  | .insertCamera _ _ :: earlier => lastStructureWrite id earlier
  | .clearStructuresMap :: _ => none
  | .clearCamerasMap :: earlier => lastStructureWrite id earlier

/-- What `GetCamera(id)` is to return after `calls` (first call first): the camera of
the last write, `NULL` if there is none. -/
def specGetCamera (calls : List Call) (id : CameraID) : Ptr :=
  match lastCameraWrite id calls.reverse with
  | some camera => camera
  | none => NULL

/-- What `ImageHasCamera(id)` is to return after `calls`: whether there is a last write. -/
def specImageHasCamera (calls : List Call) (id : CameraID) : Bool :=
  (lastCameraWrite id calls.reverse).isSome

/-- What `GetStructure(id)` is to return after `calls` (first call first). -/
def specGetStructure (calls : List Call) (id : StructureID) : Ptr :=
  match lastStructureWrite id calls.reverse with
  | some structure_ => structure_
  | none => NULL

/-- What `TrackHasStructure(id)` is to return after `calls`. -/
def specTrackHasStructure (calls : List Call) (id : StructureID) : Bool :=
  (lastStructureWrite id calls.reverse).isSome

/-! ## Identifiers known to the correspondence collaborator -/

/-- Modelled from the spec: an image identifier "exists in the underlying correspondence
collaborator" (class `Matches`, whose header is absent) when the collaborator records an
observation for that image. -/
def Matches.hasImage (m : Matches) (image : ImageID) : Bool :=
  m.observations.any (fun o => decide (o.1.1 = image))

/-- Modelled from the spec: a track identifier exists in the correspondence collaborator
(class `Matches`, whose header is absent) when it records an observation of that track. -/
def Matches.hasTrack (m : Matches) (track : TrackID) : Bool :=
  m.observations.any (fun o => decide (o.1.2 = track))

/-- Store invariant (a) of the spec: every key of the camera map is an image identifier
of `matches_`, every key of the structure map a track identifier of `matches_`. -/
def KeysInMatches (r : Reconstruction) : Prop :=
  (∀ id, ImageHasCamera r id = true → r.matches_.hasImage id = true)
  ∧ (∀ id, TrackHasStructure r id = true → r.matches_.hasTrack id = true)

/-- Whether the identifier a call inserts under exists in the correspondence set `m`
(the clearing calls insert nothing). -/
def Call.idInMatches (m : Matches) : Call → Bool
  | .insertCamera id _ => m.hasImage id
  | .insertTrack id _ => m.hasTrack id
  | .clearCamerasMap => true
  | .clearStructuresMap => true

/-! ## The two-view bootstrap -/

/-- Modelled from the spec: the tracks the correspondence collaborator (class `Matches`,
whose header is absent) records in an image, each listed once. -/
def Matches.tracksInImage (m : Matches) (image : ImageID) : List TrackID :=
  ((m.observations.filter (fun o => decide (o.1.1 = image))).map (fun o => o.1.2)).dedup

/-- Modelled from the spec: the "extraction of the common track set between two ...
images" that the correspondence collaborator `Matches` (header absent) supports. -/
def Matches.commonTracks (m : Matches) (a b : ImageID) : List TrackID :=
  (m.tracksInImage a).filter (fun t => decide (t ∈ m.tracksInImage b))

/-- Modelled from the spec: the failures of the two-view bootstrap in the taxonomy of
section 7; the functions themselves (`reconstruction.cc`, absent) return `false`. -/
inductive Failure where
  | InsufficientCorrespondences
  | NoGeometricSolution
  deriving DecidableEq, Repr

/-- Modelled from the spec: the collaborators that the spec keeps outside the core
(robust estimation, linear algebra, camera models; their code is absent), as the
functions the two-view bootstrap calls. `F` is a fundamental matrix, `Motion` a relative
rotation and translation, `K` a calibration matrix, `Cam` the content of a camera object.
* `estimateFundamental`: "Robustly estimate the fundamental matrix F over the common set
  ...; record the robustly-selected inlier subset".
* `relativeMotion`: "compute the essential matrix ...; decompose ...; select the unique
  candidate for which triangulated points lie in front of both cameras", `none` when
  "none qualifies".
* `worldProjective`, `worldPinhole`: the camera "at the world frame (identity pose for
  calibrated case, identity-normalized projection for uncalibrated)".
* `projectiveFromFundamental`: "derive a canonical second projection matrix directly
  from F".
* `pinholeFromMotion`: "Compose the absolute pose of the second camera from the first
  camera's pose and the chosen relative motion". -/
structure TwoViewCollaborators (F Motion K Cam : Type) where
  estimateFundamental : Matches → ImageID → ImageID → F × Matches
  relativeMotion : F → K → K → Option Motion
  worldProjective : Cam
  worldPinhole : K → Cam
  projectiveFromFundamental : F → Cam
  pinholeFromMotion : K → Option Cam → Motion → Cam

/-- Modelled from the spec: the store together with the camera objects its pointers
designate (classes of `libmv/multiview/camera.h`, absent): the content of each live
camera object, by address. -/
structure Scene (Cam : Type) where
  world : World
  cameraObjects : List (Ptr × Cam)

/-- The content of the object at an address, if a camera object lives there. -/
def objectAt {Cam : Type} : List (Ptr × Cam) → Ptr → Option Cam
  | [], _ => none
  | (a, cam) :: rest, p => if p = a then some cam else objectAt rest p

/-- The camera object a pointer designates. -/
def Scene.cameraAt {Cam : Type} (s : Scene Cam) (p : Ptr) : Option Cam :=
  objectAt s.cameraObjects p

/-- The address `new` gives to the next camera object: a non-null address that no live
camera object and no pointer of the camera map uses. -/
def Scene.newAddress {Cam : Type} (s : Scene Cam) : Ptr :=
  1 + (s.cameraObjects.map Prod.fst ++ s.world.store.cameras_.map Prod.snd).foldl max 0

/-- Modelled from the spec: a stage "creates" a camera and "installs" it "into the store
via insert": `new` of a camera object of content `cam`, then `InsertCamera(id, ·)`. -/
def Scene.createAndInsert {Cam : Type} (s : Scene Cam) (id : CameraID) (cam : Cam) :
    Scene Cam :=
  { world := InsertCamera s.world id s.newAddress
    cameraObjects := (s.newAddress, cam) :: s.cameraObjects }

/-- Modelled from the spec: `ReconstructFromTwoUncalibratedViews`, declared in
`reconstruction.h` and defined in the absent `reconstruction.cc`; section 4.1:
"extract correspondences common to imageA and imageB; fail with
`InsufficientCorrespondences` if fewer than 7. Robustly estimate the fundamental matrix
... If imageA has no existing camera in the store, create it at the world frame ...
derive a canonical second projection matrix directly from F ... and install it ... Insert
both cameras into the store (first camera only if newly created) and return the inlier
subset." The C++ function returns `true` exactly on `.ok`. -/
def ReconstructFromTwoUncalibratedViews {F Motion K Cam : Type}
    (ext : TwoViewCollaborators F Motion K Cam) (matches_ : Matches)
    (image_id1 image_id2 : CameraID) (s : Scene Cam) :
    Except Failure (Matches × Scene Cam) :=
  if (matches_.commonTracks image_id1 image_id2).length < 7 then
    .error .InsufficientCorrespondences
  else
    let estimate := ext.estimateFundamental matches_ image_id1 image_id2
    let s1 :=
      if ImageHasCamera s.world.store image_id1 then s
      else s.createAndInsert image_id1 ext.worldProjective
    .ok (estimate.2, s1.createAndInsert image_id2 (ext.projectiveFromFundamental estimate.1))

/-- Modelled from the spec: `ReconstructFromTwoCalibratedViews`, declared in
`reconstruction.h` and defined in the absent `reconstruction.cc`; section 4.1 as for the
uncalibrated function, with the calibrated path: "compute the essential matrix ...
decompose ... select the unique candidate ...; fail with `NoGeometricSolution` if none
qualifies. Compose the absolute pose of the second camera from the first camera's pose
and the chosen relative motion. Insert both cameras into the store (first camera only if
newly created) and return the inlier subset." The C++ function returns `true` exactly on
`.ok`. -/
def ReconstructFromTwoCalibratedViews {F Motion K Cam : Type}
    (ext : TwoViewCollaborators F Motion K Cam) (matches_ : Matches)
    (image_id1 image_id2 : CameraID) (K1 K2 : K) (s : Scene Cam) :
    Except Failure (Matches × Scene Cam) :=
  if (matches_.commonTracks image_id1 image_id2).length < 7 then
    .error .InsufficientCorrespondences
  else
    let estimate := ext.estimateFundamental matches_ image_id1 image_id2
    match ext.relativeMotion estimate.1 K1 K2 with
    | none => .error .NoGeometricSolution
    | some motion =>
      let s1 :=
        if ImageHasCamera s.world.store image_id1 then s
        else s.createAndInsert image_id1 (ext.worldPinhole K1)
      let first := s1.cameraAt (GetCamera s1.world.store image_id1)
      .ok (estimate.2, s1.createAndInsert image_id2 (ext.pinholeFromMotion K2 first motion))

/-- The value the C++ functions return: `true` on success, `false` on a failure. -/
def returnedBool {α : Type} : Except Failure α → Bool
  | .ok _ => true
  | .error _ => false

/-- Collaborators for evaluating the bootstrap on examples: the estimation keeps every
match as an inlier, a relative motion always exists, a camera object at the world frame
has content 0 and a second camera has content 1. -/
def exampleCollaborators : TwoViewCollaborators Unit Unit Unit Nat :=
  { estimateFundamental := fun m _ _ => ((), m)
    relativeMotion := fun _ _ _ => some ()
    worldProjective := 0
    worldPinhole := fun _ => 0
    projectiveFromFundamental := fun _ => 1
    pinholeFromMotion := fun _ _ _ => 1 }

/-- Observations of the tracks `0 .. n-1` in both image 0 and image 1. -/
def twoViewObservations : Nat → List ((ImageID × TrackID) × Ptr)
  | 0 => []
  | n + 1 =>
    ((0, (n : Int)), 100 + 2 * n) :: ((1, (n : Int)), 101 + 2 * n) :: twoViewObservations n

/-- A scene whose store holds the given camera map and nothing else, with a camera
object of content 5 behind every pointer of the map. -/
def exampleScene (cameras : StdMap) : Scene Nat :=
  { world := { World.fresh with store := { World.fresh.store with cameras_ := cameras } }
    cameraObjects := cameras.map (fun e => (e.2, 5)) }

/-! ## Lemmas on `std::map` -/

namespace StdMap

theorem find_assign (m : StdMap) (id j : Int) (v : Ptr) :
    find (assign m id v) j
      = if j = id then (find m id).map (fun _ => v) else find m j := by
  induction m with
  | nil => simp [assign, find]
  | cons e rest ih =>
    obtain ⟨k, w⟩ := e
    by_cases hk : id = k
    · subst hk
      by_cases hj : j = id <;> simp [assign, find, hj]
    · by_cases hj : j = id
      · subst hj
        simp [assign, find, hk, ih]
      · have hk2 : ¬ k = id := fun h => hk h.symm
        by_cases hjk : j = k <;> simp [assign, find, hk, hk2, hj, hjk, ih]

theorem find_subscriptAssign (m : StdMap) (id j : Int) (v : Ptr) :
    find (subscriptAssign m id v) j = if j = id then some v else find m j := by
  induction m with
  | nil => by_cases hj : j = id <;> simp [subscriptAssign, find, hj]
  | cons e rest ih =>
    obtain ⟨k, w⟩ := e
    by_cases hlt : id < k
    · by_cases hj : j = id <;> simp [subscriptAssign, find, hlt, hj]
    · by_cases hk : id = k
      · subst hk
        by_cases hj : j = id <;> simp [subscriptAssign, find, hj]
      · by_cases hj : j = id
        · subst hj
          simp [subscriptAssign, find, hlt, hk, ih]
        · have hk2 : ¬ k = id := fun h => hk h.symm
          by_cases hjk : j = k <;> simp [subscriptAssign, find, hlt, hk, hk2, hj, hjk, ih]

theorem find_mem (m : StdMap) (id : Int) (v : Ptr) (h : find m id = some v) :
    (id, v) ∈ m := by
  induction m with
  | nil => simp [find] at h
  | cons e rest ih =>
    obtain ⟨k, w⟩ := e
    by_cases hk : id = k
    · subst hk
      simp [find] at h
      simp [h]
    · simp [find, hk] at h
      exact List.mem_cons_of_mem _ (ih h)

theorem mem_assign (m : StdMap) (id : Int) (v : Ptr) (e : Int × Ptr)
    (h : e ∈ assign m id v) : e ∈ m ∨ e = (id, v) := by
  induction m with
  | nil => simp [assign] at h
  | cons e0 rest ih =>
    obtain ⟨k, w⟩ := e0
    by_cases hk : id = k
    · subst hk
      simp [assign] at h
      rcases h with h | h
      · right; exact h
      · left; exact List.mem_cons_of_mem _ h
    · simp [assign, hk] at h
      rcases h with h | h
      · left; simp [h]
      · rcases ih h with h1 | h1
        · left; exact List.mem_cons_of_mem _ h1
        · right; exact h1

theorem mem_subscriptAssign (m : StdMap) (id : Int) (v : Ptr) (e : Int × Ptr)
    (h : e ∈ subscriptAssign m id v) : e ∈ m ∨ e = (id, v) := by
  induction m with
  | nil => simp [subscriptAssign] at h; right; exact h
  | cons e0 rest ih =>
    obtain ⟨k, w⟩ := e0
    by_cases hlt : id < k
    · simp [subscriptAssign, hlt] at h
      rcases h with h | h | h
      · right; exact h
      · left; simp [h]
      · left; exact List.mem_cons_of_mem _ h
    · by_cases hk : id = k
      · subst hk
        simp [subscriptAssign] at h
        rcases h with h | h
        · right; exact h
        · left; exact List.mem_cons_of_mem _ h
      · simp [subscriptAssign, hlt, hk] at h
        rcases h with h | h
        · left; simp [h]
        · rcases ih h with h1 | h1
          · left; exact List.mem_cons_of_mem _ h1
          · right; exact h1

end StdMap

/-! ## Lemmas on the members -/

theorem find_InsertCamera (w : World) (id j : CameraID) (c : Ptr) :
    StdMap.find (InsertCamera w id c).store.cameras_ j
      = if j = id then some c else StdMap.find w.store.cameras_ j := by
  unfold InsertCamera
  cases hf : StdMap.find w.store.cameras_ id with
  | none => simp [StdMap.find_subscriptAssign]
  | some old =>
    by_cases hj : j = id <;> simp [StdMap.find_assign, hf, hj]

theorem find_InsertTrack (w : World) (id j : StructureID) (s : Ptr) :
    StdMap.find (InsertTrack w id s).store.structures_ j
      = if j = id then some s else StdMap.find w.store.structures_ j := by
  unfold InsertTrack
  cases hf : StdMap.find w.store.structures_ id with
  | none => simp [StdMap.find_subscriptAssign]
  | some old =>
    by_cases hj : j = id <;> simp [StdMap.find_assign, hf, hj]

@[simp] theorem InsertCamera_structures (w : World) (id : CameraID) (c : Ptr) :
    (InsertCamera w id c).store.structures_ = w.store.structures_ := by
  unfold InsertCamera; split <;> rfl

@[simp] theorem InsertTrack_cameras (w : World) (id : StructureID) (s : Ptr) :
    (InsertTrack w id s).store.cameras_ = w.store.cameras_ := by
  unfold InsertTrack; split <;> rfl

theorem InsertCamera_deletedStructures (w : World) (id : CameraID) (c : Ptr) :
    (InsertCamera w id c).deletedStructures = w.deletedStructures := by
  unfold InsertCamera; split <;> rfl

theorem InsertTrack_deletedCameras (w : World) (id : StructureID) (s : Ptr) :
    (InsertTrack w id s).deletedCameras = w.deletedCameras := by
  unfold InsertTrack; split <;> rfl

theorem InsertCamera_deletedCameras (w : World) (id : CameraID) (c : Ptr) :
    (InsertCamera w id c).deletedCameras
      = match StdMap.find w.store.cameras_ id with
        | some old => cppDelete old w.deletedCameras
        | none => w.deletedCameras := by
  unfold InsertCamera; split <;> rfl

theorem InsertTrack_deletedStructures (w : World) (id : StructureID) (s : Ptr) :
    (InsertTrack w id s).deletedStructures
      = match StdMap.find w.store.structures_ id with
        | some old => cppDelete old w.deletedStructures
        | none => w.deletedStructures := by
  unfold InsertTrack; split <;> rfl

theorem StdMap.length_assign (m : StdMap) (id : Int) (v : Ptr) :
    (StdMap.assign m id v).length = m.length := by
  induction m with
  | nil => rfl
  | cons e rest ih =>
    obtain ⟨k, w⟩ := e
    by_cases hk : id = k <;> simp [StdMap.assign, hk, ih]

theorem StdMap.length_subscriptAssign (m : StdMap) (id : Int) (v : Ptr)
    (h : StdMap.find m id = none) :
    (StdMap.subscriptAssign m id v).length = m.length + 1 := by
  induction m with
  | nil => rfl
  | cons e rest ih =>
    obtain ⟨k, w⟩ := e
    by_cases hk : id = k
    · simp [StdMap.find, hk] at h
    · simp only [StdMap.find, hk, if_false] at h
      by_cases hlt : id < k <;> simp [StdMap.subscriptAssign, hk, hlt, ih h]

theorem StdMap.find_isSome_iff (m : StdMap) (id : Int) :
    (StdMap.find m id).isSome = true ↔ id ∈ m.map Prod.fst := by
  induction m with
  | nil => simp [StdMap.find]
  | cons e rest ih =>
    obtain ⟨k, w⟩ := e
    by_cases hk : id = k
    · simp [StdMap.find, hk]
    · simp only [StdMap.find, hk, if_false, List.map_cons, List.mem_cons, false_or]
      exact ih

theorem StdMap.ncard_find_isSome (m : StdMap) (h : StdMap.WF m) :
    Set.ncard {id : Int | (StdMap.find m id).isSome = true} = StdMap.size m := by
  have hnd : (m.map Prod.fst).Nodup := by
    apply List.Pairwise.imp _ h
    intro a b hab
    exact ne_of_lt hab
  have hset : {id : Int | (StdMap.find m id).isSome = true}
      = ((m.map Prod.fst).toFinset : Set Int) := by
    ext id
    simp only [Set.mem_setOf_eq, List.coe_toFinset]
    exact StdMap.find_isSome_iff m id
  rw [hset, Set.ncard_coe_Finset, List.toFinset_card_of_nodup hnd]
  simp [StdMap.size]

theorem GetNumberCameras_InsertCamera (w : World) (id : CameraID) (c : Ptr) :
    GetNumberCameras (InsertCamera w id c).store
      = if ImageHasCamera w.store id then GetNumberCameras w.store
        else GetNumberCameras w.store + 1 := by
  unfold InsertCamera ImageHasCamera GetNumberCameras StdMap.size
  cases hf : StdMap.find w.store.cameras_ id with
  | none => simp [StdMap.length_subscriptAssign _ _ _ hf]
  | some old => simp [StdMap.length_assign]

theorem GetNumberStructures_InsertTrack (w : World) (id : StructureID) (s : Ptr) :
    GetNumberStructures (InsertTrack w id s).store
      = if TrackHasStructure w.store id then GetNumberStructures w.store
        else GetNumberStructures w.store + 1 := by
  unfold InsertTrack TrackHasStructure GetNumberStructures StdMap.size
  cases hf : StdMap.find w.store.structures_ id with
  | none => simp [StdMap.length_subscriptAssign _ _ _ hf]
  | some old => simp [StdMap.length_assign]

/-! ## Null entries -/

theorem CamerasNonNull_exec (c : Call) (w : World) (hc : ∀ id, c ≠ Call.insertCamera id NULL)
    (hw : CamerasNonNull w) : CamerasNonNull (c.exec w) := by
  cases c with
  | insertCamera id camera =>
    have hcam : camera ≠ NULL := fun h => hc id (by rw [h])
    intro e he
    simp only [Call.exec, InsertCamera] at he
    split at he
    · rcases StdMap.mem_assign _ _ _ _ he with h | h
      · exact hw e h
      · rw [h]; exact hcam
    · rcases StdMap.mem_subscriptAssign _ _ _ _ he with h | h
      · exact hw e h
      · rw [h]; exact hcam
  | insertTrack id s =>
    intro e he
    simp only [Call.exec, InsertTrack_cameras] at he
    exact hw e he
  | clearCamerasMap =>
    intro e he
    simp [Call.exec, ClearCamerasMap, StdMap.clear] at he
  | clearStructuresMap =>
    intro e he
    exact hw e he

theorem CamerasNonNull_run (calls : List Call) (w : World)
    (hc : ∀ id, Call.insertCamera id NULL ∉ calls) (hw : CamerasNonNull w) :
    CamerasNonNull (run calls w) := by
  induction calls generalizing w with
  | nil => exact hw
  | cons c rest ih =>
    apply ih
    · intro id h
      exact hc id (List.mem_cons_of_mem _ h)
    · apply CamerasNonNull_exec _ _ _ hw
      intro id h
      exact hc id (by rw [h]; exact List.mem_cons_self _ _)

theorem hasCamera_iff_of_CamerasNonNull (w : World) (hw : CamerasNonNull w) (id : CameraID) :
    ImageHasCamera w.store id = true ↔ GetCamera w.store id ≠ NULL := by
  unfold ImageHasCamera GetCamera
  cases hf : StdMap.find w.store.cameras_ id with
  | none => simp
  | some v =>
    have := hw _ (StdMap.find_mem _ _ _ hf)
    simpa using this

/-! ## Accounting of instances -/

theorem cppDelete_eq (p : Ptr) (log : List Ptr) : cppDelete p log = log ++ pointee p := by
  unfold cppDelete pointee
  split <;> simp

theorem heldInstances_cons (k : Int) (v : Ptr) (m : StdMap) :
    heldInstances ((k, v) :: m) = pointee v ++ heldInstances m := by
  unfold heldInstances pointee
  by_cases hv : v = NULL <;> simp [hv]

theorem deleteAll_eq (m : StdMap) (log : List Ptr) :
    deleteAll m log = log ++ heldInstances m := by
  induction m generalizing log with
  | nil => simp [deleteAll, heldInstances]
  | cons e rest ih =>
    obtain ⟨k, v⟩ := e
    have h : deleteAll ((k, v) :: rest) log = deleteAll rest (cppDelete v log) := rfl
    rw [h, ih, cppDelete_eq, heldInstances_cons, List.append_assoc]

theorem count_held_assign (m : StdMap) (id : Int) (c old : Ptr)
    (h : StdMap.find m id = some old) (a : Ptr) :
    (heldInstances (StdMap.assign m id c)).count a + (pointee old).count a
      = (heldInstances m).count a + (pointee c).count a := by
  induction m with
  | nil => simp [StdMap.find] at h
  | cons e rest ih =>
    obtain ⟨k, w⟩ := e
    by_cases hk : id = k
    · subst hk
      simp [StdMap.find] at h
      subst h
      simp only [StdMap.assign, if_true, heldInstances_cons, List.count_append]
      omega
    · simp only [StdMap.find, hk, if_false] at h
      have := ih h
      simp only [StdMap.assign, hk, if_false, heldInstances_cons, List.count_append]
      omega

theorem count_held_subscriptAssign (m : StdMap) (id : Int) (c : Ptr)
    (h : StdMap.find m id = none) (a : Ptr) :
    (heldInstances (StdMap.subscriptAssign m id c)).count a
      = (heldInstances m).count a + (pointee c).count a := by
  induction m with
  | nil =>
    have h0 : heldInstances ([] : StdMap) = [] := rfl
    simp only [StdMap.subscriptAssign, heldInstances_cons, h0, List.count_append]
    simp
  | cons e rest ih =>
    obtain ⟨k, w⟩ := e
    by_cases hk : id = k
    · simp [StdMap.find, hk] at h
    · simp only [StdMap.find, hk, if_false] at h
      have := ih h
      by_cases hlt : id < k
      · simp only [StdMap.subscriptAssign, hlt, if_true, heldInstances_cons,
          List.count_append]
        omega
      · simp only [StdMap.subscriptAssign, hlt, hk, if_false, heldInstances_cons,
          List.count_append]
        omega

theorem mem_heldInstances_of_find (m : StdMap) (id : Int) (v : Ptr)
    (h : StdMap.find m id = some v) (hv : v ≠ NULL) : v ∈ heldInstances m := by
  unfold heldInstances
  rw [List.mem_filter]
  refine ⟨?_, by simpa using hv⟩
  exact List.mem_map.mpr ⟨(id, v), StdMap.find_mem m id v h, rfl⟩

/-- Every camera instance handed to the store is either held by it or in the log of
released cameras, with multiplicities: one call. -/
theorem cameras_accounted_exec (c : Call) (w : World) (a : Ptr) :
    (c.exec w).deletedCameras.count a + (heldInstances (c.exec w).store.cameras_).count a
      = w.deletedCameras.count a + (heldInstances w.store.cameras_).count a
        + (insertedCameras [c]).count a := by
  cases c with
  | insertCamera id camera =>
    have hins : insertedCameras [Call.insertCamera id camera] = pointee camera := by
      unfold insertedCameras pointee
      split <;> simp [insertedCameras]
    rw [hins]
    simp only [Call.exec, InsertCamera]
    cases hf : StdMap.find w.store.cameras_ id with
    | none =>
      simp only [count_held_subscriptAssign _ _ _ hf]
      omega
    | some old =>
      have := count_held_assign _ _ camera _ hf a
      simp only [cppDelete_eq, List.count_append]
      omega
  | insertTrack id s =>
    simp [Call.exec, InsertTrack_deletedCameras, insertedCameras]
  | clearCamerasMap =>
    simp [Call.exec, ClearCamerasMap, deleteAll_eq, StdMap.clear, heldInstances,
      insertedCameras]
  | clearStructuresMap =>
    simp [Call.exec, ClearStructuresMap, insertedCameras]

theorem insertedCameras_cons (c : Call) (rest : List Call) :
    insertedCameras (c :: rest) = insertedCameras [c] ++ insertedCameras rest := by
  cases c with
  | insertCamera id camera =>
    by_cases h : camera = NULL <;> simp [insertedCameras, h]
  | insertTrack id s => simp [insertedCameras]
  | clearCamerasMap => simp [insertedCameras]
  | clearStructuresMap => simp [insertedCameras]

theorem cameras_accounted_run (calls : List Call) (w : World) (a : Ptr) :
    (run calls w).deletedCameras.count a + (heldInstances (run calls w).store.cameras_).count a
      = w.deletedCameras.count a + (heldInstances w.store.cameras_).count a
        + (insertedCameras calls).count a := by
  induction calls generalizing w with
  | nil => simp [run, insertedCameras]
  | cons c rest ih =>
    rw [insertedCameras_cons, List.count_append]
    simp only [run]
    rw [ih, cameras_accounted_exec]
    omega

/-- Every structure instance handed to the store is either held by it or in the log of
released structures, with multiplicities: one call. -/
theorem structures_accounted_exec (c : Call) (w : World) (a : Ptr) :
    (c.exec w).deletedStructures.count a
        + (heldInstances (c.exec w).store.structures_).count a
      = w.deletedStructures.count a + (heldInstances w.store.structures_).count a
        + (insertedStructures [c]).count a := by
  cases c with
  | insertTrack id s =>
    have hins : insertedStructures [Call.insertTrack id s] = pointee s := by
      unfold insertedStructures pointee
      split <;> simp [insertedStructures]
    rw [hins]
    simp only [Call.exec, InsertTrack]
    cases hf : StdMap.find w.store.structures_ id with
    | none =>
      simp only [count_held_subscriptAssign _ _ _ hf]
      omega
    | some old =>
      have := count_held_assign _ _ s _ hf a
      simp only [cppDelete_eq, List.count_append]
      omega
  | insertCamera id camera =>
    simp [Call.exec, InsertCamera_deletedStructures, insertedStructures]
  | clearStructuresMap =>
    simp [Call.exec, ClearStructuresMap, deleteAll_eq, StdMap.clear, heldInstances,
      insertedStructures]
  | clearCamerasMap =>
    simp [Call.exec, ClearCamerasMap, insertedStructures]

theorem insertedStructures_cons (c : Call) (rest : List Call) :
    insertedStructures (c :: rest) = insertedStructures [c] ++ insertedStructures rest := by
  cases c with
  | insertTrack id s =>
    by_cases h : s = NULL <;> simp [insertedStructures, h]
  | insertCamera id camera => simp [insertedStructures]
  | clearCamerasMap => simp [insertedStructures]
  | clearStructuresMap => simp [insertedStructures]

theorem structures_accounted_run (calls : List Call) (w : World) (a : Ptr) :
    (run calls w).deletedStructures.count a
        + (heldInstances (run calls w).store.structures_).count a
      = w.deletedStructures.count a + (heldInstances w.store.structures_).count a
        + (insertedStructures calls).count a := by
  induction calls generalizing w with
  | nil => simp [run, insertedStructures]
  | cons c rest ih =>
    rw [insertedStructures_cons, List.count_append]
    simp only [run]
    rw [ih, structures_accounted_exec]
    omega

/-- When the accounted instances are pairwise distinct, the log has no repetition and
meets no held instance. -/
theorem nodup_of_accounted (deleted held inserted : List Ptr)
    (hacc : ∀ a, deleted.count a + held.count a = inserted.count a)
    (hnd : inserted.Nodup) :
    deleted.Nodup ∧ ∀ p ∈ held, p ∉ deleted := by
  rw [List.nodup_iff_count_le_one] at hnd
  constructor
  · rw [List.nodup_iff_count_le_one]
    intro a
    have := hacc a
    have := hnd a
    omega
  · intro p hp hd
    have h1 := hacc p
    have h2 := hnd p
    have h3 : 0 < held.count p := List.count_pos_iff.mpr hp
    have h4 : 0 < deleted.count p := List.count_pos_iff.mpr hd
    omega

/-! ## Two insertions under distinct identifiers -/

theorem InsertCamera_deletedCameras_append (w : World) (id : CameraID) (c : Ptr) :
    (InsertCamera w id c).deletedCameras
      = w.deletedCameras ++ releasedByInsert (StdMap.find w.store.cameras_ id) := by
  rw [InsertCamera_deletedCameras]
  cases StdMap.find w.store.cameras_ id with
  | none => simp [releasedByInsert]
  | some old => simp [releasedByInsert, cppDelete_eq]

theorem InsertTrack_deletedStructures_append (w : World) (id : StructureID) (s : Ptr) :
    (InsertTrack w id s).deletedStructures
      = w.deletedStructures ++ releasedByInsert (StdMap.find w.store.structures_ id) := by
  rw [InsertTrack_deletedStructures]
  cases StdMap.find w.store.structures_ id with
  | none => simp [releasedByInsert]
  | some old => simp [releasedByInsert, cppDelete_eq]

theorem find_two_InsertCamera (w : World) (id1 id2 j : CameraID) (c1 c2 : Ptr)
    (h : id1 ≠ id2) :
    StdMap.find (InsertCamera (InsertCamera w id1 c1) id2 c2).store.cameras_ j
      = StdMap.find (InsertCamera (InsertCamera w id2 c2) id1 c1).store.cameras_ j := by
  simp only [find_InsertCamera]
  have h' : id2 ≠ id1 := fun e => h e.symm
  by_cases h1 : j = id1
  · subst h1
    simp [h]
  · by_cases h2 : j = id2
    · subst h2
      simp [h']
    · simp [h1, h2]

theorem find_two_InsertTrack (w : World) (id1 id2 j : StructureID) (s1 s2 : Ptr)
    (h : id1 ≠ id2) :
    StdMap.find (InsertTrack (InsertTrack w id1 s1) id2 s2).store.structures_ j
      = StdMap.find (InsertTrack (InsertTrack w id2 s2) id1 s1).store.structures_ j := by
  simp only [find_InsertTrack]
  have h' : id2 ≠ id1 := fun e => h e.symm
  by_cases h1 : j = id1
  · subst h1
    simp [h]
  · by_cases h2 : j = id2
    · subst h2
      simp [h']
    · simp [h1, h2]

theorem hasCamera_InsertCamera_of_ne (w : World) (id j : CameraID) (c : Ptr) (h : j ≠ id) :
    ImageHasCamera (InsertCamera w id c).store j = ImageHasCamera w.store j := by
  simp [ImageHasCamera, find_InsertCamera, h]

theorem hasStructure_InsertTrack_of_ne (w : World) (id j : StructureID) (s : Ptr)
    (h : j ≠ id) :
    TrackHasStructure (InsertTrack w id s).store j = TrackHasStructure w.store j := by
  simp [TrackHasStructure, find_InsertTrack, h]

/-! ## The invariant of `std::map` is kept -/

theorem StdMap.keys_assign (m : StdMap) (id : Int) (v : Ptr) :
    (StdMap.assign m id v).map Prod.fst = m.map Prod.fst := by
  induction m with
  | nil => rfl
  | cons e rest ih =>
    obtain ⟨k, w⟩ := e
    by_cases hk : id = k <;> simp [StdMap.assign, hk, ih]

theorem StdMap.WF_assign (m : StdMap) (id : Int) (v : Ptr) (h : StdMap.WF m) :
    StdMap.WF (StdMap.assign m id v) := by
  unfold StdMap.WF
  rw [StdMap.keys_assign]
  exact h

theorem StdMap.WF_subscriptAssign (m : StdMap) (id : Int) (v : Ptr) (h : StdMap.WF m) :
    StdMap.WF (StdMap.subscriptAssign m id v) := by
  induction m with
  | nil => simp [StdMap.subscriptAssign, StdMap.WF]
  | cons e rest ih =>
    obtain ⟨k, w⟩ := e
    unfold StdMap.WF at h ih ⊢
    simp only [List.map_cons, List.pairwise_cons] at h
    obtain ⟨hhead, htail⟩ := h
    by_cases hlt : id < k
    · simp only [StdMap.subscriptAssign, hlt, if_true, List.map_cons, List.pairwise_cons]
      refine ⟨?_, hhead, htail⟩
      intro x hx
      rcases List.mem_cons.mp hx with hx | hx
      · rw [hx]; exact hlt
      · exact lt_trans hlt (hhead x hx)
    · by_cases hk : id = k
      · subst hk
        simp only [StdMap.subscriptAssign, lt_irrefl, if_false, if_true, List.map_cons,
          List.pairwise_cons]
        exact ⟨hhead, htail⟩
      · simp only [StdMap.subscriptAssign, hlt, hk, if_false, List.map_cons,
          List.pairwise_cons]
        refine ⟨?_, ih htail⟩
        intro x hx
        obtain ⟨e, he, hex⟩ := List.mem_map.mp hx
        rcases StdMap.mem_subscriptAssign _ _ _ _ he with h1 | h1
        · exact hhead x (List.mem_map.mpr ⟨e, h1, hex⟩)
        · rw [h1] at hex
          simp only at hex
          rw [← hex]
          omega

theorem StoreWF_exec (c : Call) (w : World) (h : StoreWF w) : StoreWF (c.exec w) := by
  obtain ⟨hc, hs⟩ := h
  cases c with
  | insertCamera id camera =>
    refine ⟨?_, by simpa [Call.exec] using hs⟩
    simp only [Call.exec, InsertCamera]
    split
    · exact StdMap.WF_assign _ _ _ hc
    · exact StdMap.WF_subscriptAssign _ _ _ hc
  | insertTrack id s =>
    refine ⟨by simpa [Call.exec] using hc, ?_⟩
    simp only [Call.exec, InsertTrack]
    split
    · exact StdMap.WF_assign _ _ _ hs
    · exact StdMap.WF_subscriptAssign _ _ _ hs
  | clearCamerasMap => exact ⟨by simp [Call.exec, ClearCamerasMap, StdMap.clear, StdMap.WF], hs⟩
  | clearStructuresMap => exact ⟨hc, by simp [Call.exec, ClearStructuresMap, StdMap.clear, StdMap.WF]⟩

/-- Every store reached from the empty store keeps its keys in strictly increasing
order. -/
theorem StoreWF_run (calls : List Call) : StoreWF (run calls World.fresh) := by
  have key : ∀ (cs : List Call) (w : World), StoreWF w → StoreWF (run cs w) := by
    intro cs
    induction cs with
    | nil => intro w hw; exact hw
    | cons c rest ih => intro w hw; exact ih _ (StoreWF_exec c w hw)
  exact key calls World.fresh
    ⟨by simp [World.fresh, StdMap.WF], by simp [World.fresh, StdMap.WF]⟩

/-! ## The claims: queries, insertion, clearing -/

/-- C1, counterexample: after `InsertCamera(0, NULL)` on the empty store,
`ImageHasCamera(0)` is true although `GetCamera(0)` returns `NULL`, so the equivalence
of the claim fails for a store reached by `InsertCamera` calls alone. -/
theorem hasCamera_iff_getCamera_fails_for_null_camera :
    ¬ (ImageHasCamera (run [Call.insertCamera 0 NULL] World.fresh).store 0 = true
        ↔ GetCamera (run [Call.insertCamera 0 NULL] World.fresh).store 0 ≠ NULL) := by
  decide

/-- C1 (amended): for every store reached from the empty store by a sequence of calls
in which no `InsertCamera` call receives a null camera, and for every identifier,
`ImageHasCamera(id)` is true if and only if `GetCamera(id)` returns a non-null camera. -/
theorem hasCamera_iff_getCamera_ne_null (calls : List Call)
    (hnn : ∀ id, Call.insertCamera id NULL ∉ calls) (id : CameraID) :
    ImageHasCamera (run calls World.fresh).store id = true
      ↔ GetCamera (run calls World.fresh).store id ≠ NULL := by
  apply hasCamera_iff_of_CamerasNonNull
  apply CamerasNonNull_run _ _ hnn
  intro e he
  simp [World.fresh] at he

/-- C1, witness: the amended statement at the calls `InsertCamera(0, 5)`,
`ClearCamerasMap()`, `InsertCamera(2, 7)`, `InsertCamera(2, 8)` and identifier 2. -/
theorem hasCamera_iff_getCamera_ne_null_witness :
    (∀ id, Call.insertCamera id NULL ∉
        [Call.insertCamera 0 5, Call.clearCamerasMap, Call.insertCamera 2 7,
          Call.insertCamera 2 8])
    ∧ (ImageHasCamera (run [Call.insertCamera 0 5, Call.clearCamerasMap,
          Call.insertCamera 2 7, Call.insertCamera 2 8] World.fresh).store 2 = true
        ↔ GetCamera (run [Call.insertCamera 0 5, Call.clearCamerasMap,
          Call.insertCamera 2 7, Call.insertCamera 2 8] World.fresh).store 2 ≠ NULL) :=
  ⟨by simp [NULL], hasCamera_iff_getCamera_ne_null _ (by simp [NULL]) 2⟩

/-- C2: after `InsertCamera(id, c)`, `GetCamera(id)` returns exactly `c` and
`ImageHasCamera(id)` is true, whatever the store held before; likewise after
`InsertTrack(id, s)`, `GetStructure(id)` returns `s` and `TrackHasStructure(id)` is
true. -/
theorem get_after_insert (w : World) (id : Int) (p : Ptr) :
    (GetCamera (InsertCamera w id p).store id = p
      ∧ ImageHasCamera (InsertCamera w id p).store id = true)
    ∧ (GetStructure (InsertTrack w id p).store id = p
      ∧ TrackHasStructure (InsertTrack w id p).store id = true) := by
  simp [GetCamera, ImageHasCamera, GetStructure, TrackHasStructure, find_InsertCamera,
    find_InsertTrack]

/-- C3: with the releases logged, `InsertCamera(id, c)` on a store where `id` maps to
a previous instance `p` appends exactly `p` to the log of released cameras, leaves the log
of released structures alone and makes `c` the camera of `id`; where the entry of `id`
holds no instance (a null pointer), or where `id` is absent, it releases nothing. The
same holds for `InsertTrack` and the structure map. -/
theorem insert_releases_exactly_previous (w : World) (id : Int) (c : Ptr) :
    ((∀ p, ImageHasCamera w.store id = true → GetCamera w.store id = p → p ≠ NULL →
        (InsertCamera w id c).deletedCameras = w.deletedCameras ++ [p]
        ∧ (InsertCamera w id c).deletedStructures = w.deletedStructures
        ∧ GetCamera (InsertCamera w id c).store id = c)
      ∧ (ImageHasCamera w.store id = true → GetCamera w.store id = NULL →
        (InsertCamera w id c).deletedCameras = w.deletedCameras
        ∧ (InsertCamera w id c).deletedStructures = w.deletedStructures)
      ∧ (ImageHasCamera w.store id = false →
        (InsertCamera w id c).deletedCameras = w.deletedCameras
        ∧ (InsertCamera w id c).deletedStructures = w.deletedStructures))
    ∧ ((∀ p, TrackHasStructure w.store id = true → GetStructure w.store id = p → p ≠ NULL →
        (InsertTrack w id c).deletedStructures = w.deletedStructures ++ [p]
        ∧ (InsertTrack w id c).deletedCameras = w.deletedCameras
        ∧ GetStructure (InsertTrack w id c).store id = c)
      ∧ (TrackHasStructure w.store id = true → GetStructure w.store id = NULL →
        (InsertTrack w id c).deletedStructures = w.deletedStructures
        ∧ (InsertTrack w id c).deletedCameras = w.deletedCameras)
      ∧ (TrackHasStructure w.store id = false →
        (InsertTrack w id c).deletedStructures = w.deletedStructures
        ∧ (InsertTrack w id c).deletedCameras = w.deletedCameras)) := by
  refine ⟨⟨?_, ?_, ?_⟩, ⟨?_, ?_, ?_⟩⟩
  · intro p hhas hget hp
    refine ⟨?_, InsertCamera_deletedStructures w id c, ?_⟩
    · rw [InsertCamera_deletedCameras]
      unfold GetCamera at hget
      cases hf : StdMap.find w.store.cameras_ id with
      | none => simp [ImageHasCamera, hf] at hhas
      | some old =>
        rw [hf] at hget
        simp only at hget
        subst hget
        simp [cppDelete, hp]
    · simp [GetCamera, find_InsertCamera]
  · intro hhas hget
    refine ⟨?_, InsertCamera_deletedStructures w id c⟩
    rw [InsertCamera_deletedCameras]
    unfold GetCamera at hget
    cases hf : StdMap.find w.store.cameras_ id with
    | none => rfl
    | some old =>
      rw [hf] at hget
      simp only at hget
      simp [cppDelete, hget]
  · intro hhas
    refine ⟨?_, InsertCamera_deletedStructures w id c⟩
    rw [InsertCamera_deletedCameras]
    cases hf : StdMap.find w.store.cameras_ id with
    | none => rfl
    | some old => simp [ImageHasCamera, hf] at hhas
  · intro p hhas hget hp
    refine ⟨?_, InsertTrack_deletedCameras w id c, ?_⟩
    · rw [InsertTrack_deletedStructures]
      unfold GetStructure at hget
      cases hf : StdMap.find w.store.structures_ id with
      | none => simp [TrackHasStructure, hf] at hhas
      | some old =>
        rw [hf] at hget
        simp only at hget
        subst hget
        simp [cppDelete, hp]
    · simp [GetStructure, find_InsertTrack]
  · intro hhas hget
    refine ⟨?_, InsertTrack_deletedCameras w id c⟩
    rw [InsertTrack_deletedStructures]
    unfold GetStructure at hget
    cases hf : StdMap.find w.store.structures_ id with
    | none => rfl
    | some old =>
      rw [hf] at hget
      simp only at hget
      simp [cppDelete, hget]
  · intro hhas
    refine ⟨?_, InsertTrack_deletedCameras w id c⟩
    rw [InsertTrack_deletedStructures]
    cases hf : StdMap.find w.store.structures_ id with
    | none => rfl
    | some old => simp [TrackHasStructure, hf] at hhas

/-- C3, witness: in the store reached by `InsertCamera(4, 11)`, `InsertCamera(4, 12)`
releases the instance 11 and nothing else, and installs 12. -/
theorem insert_releases_exactly_previous_witness :
    (InsertCamera (run [Call.insertCamera 4 11] World.fresh) 4 12).deletedCameras = [11]
    ∧ (InsertCamera (run [Call.insertCamera 4 11] World.fresh) 4 12).deletedStructures = []
    ∧ GetCamera (InsertCamera (run [Call.insertCamera 4 11] World.fresh) 4 12).store 4 = 12 :=
  (insert_releases_exactly_previous (run [Call.insertCamera 4 11] World.fresh) 4 12).1.1 11
    (by decide) (by decide) (by decide)

/-- C4: after `ClearCamerasMap()`, `GetNumberCameras()` is 0 and `ImageHasCamera(id)` is
false for every identifier; after `ClearStructuresMap()`, `GetNumberStructures()` is 0
and `TrackHasStructure(id)` is false for every identifier. -/
theorem clear_empties (w : World) :
    (GetNumberCameras (ClearCamerasMap w).store = 0
      ∧ ∀ id, ImageHasCamera (ClearCamerasMap w).store id = false)
    ∧ (GetNumberStructures (ClearStructuresMap w).store = 0
      ∧ ∀ id, TrackHasStructure (ClearStructuresMap w).store id = false) := by
  refine ⟨⟨rfl, fun id => rfl⟩, ⟨rfl, fun id => rfl⟩⟩

/-- C5: `InsertCamera(id, c)` increases `GetNumberCameras()` by exactly 1 when
`ImageHasCamera(id)` was false and leaves it unchanged when it was true; and for every
value of the camera map (keys in strictly increasing order, the invariant of
`std::map`), `GetNumberCameras()` is the number of distinct identifiers for which
`ImageHasCamera` holds. Likewise for `InsertTrack`, `GetNumberStructures()` and
`TrackHasStructure`. In particular both counts are right in every store reached from the
empty store by a sequence of calls. -/
theorem count_tracks_distinct_keys (w : World) (id : Int) (p : Ptr) :
    ((ImageHasCamera w.store id = false →
          GetNumberCameras (InsertCamera w id p).store = GetNumberCameras w.store + 1)
      ∧ (ImageHasCamera w.store id = true →
          GetNumberCameras (InsertCamera w id p).store = GetNumberCameras w.store)
      ∧ (StdMap.WF w.store.cameras_ →
          Set.ncard {i : CameraID | ImageHasCamera w.store i = true}
            = GetNumberCameras w.store))
    ∧ ((TrackHasStructure w.store id = false →
          GetNumberStructures (InsertTrack w id p).store = GetNumberStructures w.store + 1)
      ∧ (TrackHasStructure w.store id = true →
          GetNumberStructures (InsertTrack w id p).store = GetNumberStructures w.store)
      ∧ (StdMap.WF w.store.structures_ →
          Set.ncard {i : StructureID | TrackHasStructure w.store i = true}
            = GetNumberStructures w.store))
    ∧ (∀ calls : List Call,
        Set.ncard {i : CameraID | ImageHasCamera (run calls World.fresh).store i = true}
            = GetNumberCameras (run calls World.fresh).store
        ∧ Set.ncard {i : StructureID | TrackHasStructure (run calls World.fresh).store i = true}
            = GetNumberStructures (run calls World.fresh).store) := by
  refine ⟨⟨?_, ?_, ?_⟩, ⟨?_, ?_, ?_⟩, fun calls =>
    ⟨StdMap.ncard_find_isSome _ (StoreWF_run calls).1,
      StdMap.ncard_find_isSome _ (StoreWF_run calls).2⟩⟩
  · intro h; simp [GetNumberCameras_InsertCamera, h]
  · intro h; simp [GetNumberCameras_InsertCamera, h]
  · intro h; exact StdMap.ncard_find_isSome _ h
  · intro h; simp [GetNumberStructures_InsertTrack, h]
  · intro h; simp [GetNumberStructures_InsertTrack, h]
  · intro h; exact StdMap.ncard_find_isSome _ h

/-- C6: for every store and every identifier with `ImageHasCamera(id)` false,
`GetCamera(id)` returns `NULL`, and for every identifier with `TrackHasStructure(id)`
false, `GetStructure(id)` returns `NULL`. The queries are `const` members, embedded as
total functions of the store that yield the result only. -/
theorem get_missing_returns_null (r : Reconstruction) (id : Int) :
    (ImageHasCamera r id = false → GetCamera r id = NULL)
    ∧ (TrackHasStructure r id = false → GetStructure r id = NULL) := by
  constructor
  · intro h
    unfold ImageHasCamera at h
    unfold GetCamera
    cases hf : StdMap.find r.cameras_ id with
    | none => rfl
    | some v => simp [hf] at h
  · intro h
    unfold TrackHasStructure at h
    unfold GetStructure
    cases hf : StdMap.find r.structures_ id with
    | none => rfl
    | some v => simp [hf] at h

/-- C6, witness: in the store reached by `InsertCamera(1, 9)`, the identifier 2 has no
camera and `GetCamera(2)` is `NULL`. -/
theorem get_missing_returns_null_witness :
    ImageHasCamera (run [Call.insertCamera 1 9] World.fresh).store 2 = false
    ∧ GetCamera (run [Call.insertCamera 1 9] World.fresh).store 2 = NULL :=
  ⟨by decide, (get_missing_returns_null (run [Call.insertCamera 1 9] World.fresh).store 2).1
    (by decide)⟩

/-- C5, witness: the store reached by `InsertCamera(3, 5)`, `InsertCamera(1, 6)`,
`InsertCamera(3, 7)` has its keys in increasing order, exactly 2 identifiers have a
camera, and inserting under the absent identifier 2 brings the count to 3. -/
theorem count_tracks_distinct_keys_witness :
    StdMap.WF (run [Call.insertCamera 3 5, Call.insertCamera 1 6, Call.insertCamera 3 7]
        World.fresh).store.cameras_
    ∧ Set.ncard {i : CameraID | ImageHasCamera (run [Call.insertCamera 3 5,
        Call.insertCamera 1 6, Call.insertCamera 3 7] World.fresh).store i = true} = 2
    ∧ GetNumberCameras (InsertCamera (run [Call.insertCamera 3 5, Call.insertCamera 1 6,
        Call.insertCamera 3 7] World.fresh) 2 8).store = 3 :=
  ⟨by decide,
    ((count_tracks_distinct_keys (run [Call.insertCamera 3 5, Call.insertCamera 1 6,
      Call.insertCamera 3 7] World.fresh) 2 8).1.2.2 (by decide)).trans (by decide),
    ((count_tracks_distinct_keys (run [Call.insertCamera 3 5, Call.insertCamera 1 6,
      Call.insertCamera 3 7] World.fresh) 2 8).1.1 (by decide)).trans (by decide)⟩

/-! ## The claims: ownership and release -/

/-- C7, counterexample: the same camera instance 7 inserted under two identifiers is
released twice by `ClearCamerasMap()`, and the instance 7 inserted again under its own
identifier is released while the store goes on holding it. -/
theorem double_release_when_instance_reinserted :
    ¬ (run [Call.insertCamera 0 7, Call.insertCamera 1 7, Call.clearCamerasMap]
        World.fresh).deletedCameras.Nodup
    ∧ GetCamera (run [Call.insertCamera 0 7, Call.insertCamera 0 7] World.fresh).store 0 ≠ NULL
    ∧ GetCamera (run [Call.insertCamera 0 7, Call.insertCamera 0 7] World.fresh).store 0
        ∈ (run [Call.insertCamera 0 7, Call.insertCamera 0 7] World.fresh).deletedCameras := by
  decide

/-- C7 (amended): with the releases logged, for every sequence of `InsertCamera`,
`InsertTrack`, `ClearCamerasMap` and `ClearStructuresMap` calls from the empty store in
which no camera instance is passed to `InsertCamera` twice and no structure instance is
passed to `InsertTrack` twice, no instance is released more than once and no instance
still held by the store has been released. -/
theorem no_double_release (calls : List Call)
    (hc : (insertedCameras calls).Nodup) (hs : (insertedStructures calls).Nodup) :
    ((run calls World.fresh).deletedCameras.Nodup
      ∧ ∀ id, GetCamera (run calls World.fresh).store id ≠ NULL →
          GetCamera (run calls World.fresh).store id
            ∉ (run calls World.fresh).deletedCameras)
    ∧ ((run calls World.fresh).deletedStructures.Nodup
      ∧ ∀ id, GetStructure (run calls World.fresh).store id ≠ NULL →
          GetStructure (run calls World.fresh).store id
            ∉ (run calls World.fresh).deletedStructures) := by
  have hcam := nodup_of_accounted (run calls World.fresh).deletedCameras
    (heldInstances (run calls World.fresh).store.cameras_) (insertedCameras calls)
    (fun a => by
      have := cameras_accounted_run calls World.fresh a
      simpa [World.fresh, heldInstances] using this) hc
  have hstr := nodup_of_accounted (run calls World.fresh).deletedStructures
    (heldInstances (run calls World.fresh).store.structures_) (insertedStructures calls)
    (fun a => by
      have := structures_accounted_run calls World.fresh a
      simpa [World.fresh, heldInstances] using this) hs
  refine ⟨⟨hcam.1, ?_⟩, ⟨hstr.1, ?_⟩⟩
  · intro id hne
    apply hcam.2
    unfold GetCamera at hne ⊢
    cases hf : StdMap.find (run calls World.fresh).store.cameras_ id with
    | none => simp [hf] at hne
    | some v =>
      rw [hf] at hne
      exact mem_heldInstances_of_find _ _ _ hf hne
  · intro id hne
    apply hstr.2
    unfold GetStructure at hne ⊢
    cases hf : StdMap.find (run calls World.fresh).store.structures_ id with
    | none => simp [hf] at hne
    | some v =>
      rw [hf] at hne
      exact mem_heldInstances_of_find _ _ _ hf hne

/-- C7, witness: the amended statement at the calls `InsertCamera(0, 7)`,
`InsertTrack(0, 21)`, `InsertCamera(0, 8)`, `InsertCamera(1, 9)`, `ClearCamerasMap()`,
`InsertCamera(1, 10)`, `InsertTrack(0, 22)`. -/
theorem no_double_release_witness :
    ((run [Call.insertCamera 0 7, Call.insertTrack 0 21, Call.insertCamera 0 8,
        Call.insertCamera 1 9, Call.clearCamerasMap, Call.insertCamera 1 10,
        Call.insertTrack 0 22] World.fresh).deletedCameras.Nodup
      ∧ ∀ id, GetCamera (run [Call.insertCamera 0 7, Call.insertTrack 0 21,
          Call.insertCamera 0 8, Call.insertCamera 1 9, Call.clearCamerasMap,
          Call.insertCamera 1 10, Call.insertTrack 0 22] World.fresh).store id ≠ NULL →
          GetCamera (run [Call.insertCamera 0 7, Call.insertTrack 0 21,
            Call.insertCamera 0 8, Call.insertCamera 1 9, Call.clearCamerasMap,
            Call.insertCamera 1 10, Call.insertTrack 0 22] World.fresh).store id
            ∉ (run [Call.insertCamera 0 7, Call.insertTrack 0 21, Call.insertCamera 0 8,
              Call.insertCamera 1 9, Call.clearCamerasMap, Call.insertCamera 1 10,
              Call.insertTrack 0 22] World.fresh).deletedCameras)
    ∧ ((run [Call.insertCamera 0 7, Call.insertTrack 0 21, Call.insertCamera 0 8,
        Call.insertCamera 1 9, Call.clearCamerasMap, Call.insertCamera 1 10,
        Call.insertTrack 0 22] World.fresh).deletedStructures.Nodup
      ∧ ∀ id, GetStructure (run [Call.insertCamera 0 7, Call.insertTrack 0 21,
          Call.insertCamera 0 8, Call.insertCamera 1 9, Call.clearCamerasMap,
          Call.insertCamera 1 10, Call.insertTrack 0 22] World.fresh).store id ≠ NULL →
          GetStructure (run [Call.insertCamera 0 7, Call.insertTrack 0 21,
            Call.insertCamera 0 8, Call.insertCamera 1 9, Call.clearCamerasMap,
            Call.insertCamera 1 10, Call.insertTrack 0 22] World.fresh).store id
            ∉ (run [Call.insertCamera 0 7, Call.insertTrack 0 21, Call.insertCamera 0 8,
              Call.insertCamera 1 9, Call.clearCamerasMap, Call.insertCamera 1 10,
              Call.insertTrack 0 22] World.fresh).deletedStructures) :=
  no_double_release [Call.insertCamera 0 7, Call.insertTrack 0 21, Call.insertCamera 0 8,
    Call.insertCamera 1 9, Call.clearCamerasMap, Call.insertCamera 1 10,
    Call.insertTrack 0 22] (by decide) (by decide)

/-- C8: `ClearCamerasMap()` appends to the log of released cameras exactly the
instances the camera map holds, one per entry and in key order, and releases no
structure; every camera `GetCamera` returned before the call is among them.
`ClearStructuresMap()` does the same for the structure map. -/
theorem clear_releases_every_entry (w : World) :
    ((ClearCamerasMap w).deletedCameras
        = w.deletedCameras ++ heldInstances w.store.cameras_
      ∧ (ClearCamerasMap w).deletedStructures = w.deletedStructures
      ∧ ∀ id, GetCamera w.store id ≠ NULL →
          GetCamera w.store id ∈ heldInstances w.store.cameras_)
    ∧ ((ClearStructuresMap w).deletedStructures
        = w.deletedStructures ++ heldInstances w.store.structures_
      ∧ (ClearStructuresMap w).deletedCameras = w.deletedCameras
      ∧ ∀ id, GetStructure w.store id ≠ NULL →
          GetStructure w.store id ∈ heldInstances w.store.structures_) := by
  refine ⟨⟨deleteAll_eq _ _, rfl, ?_⟩, ⟨deleteAll_eq _ _, rfl, ?_⟩⟩
  · intro id hne
    unfold GetCamera at hne ⊢
    cases hf : StdMap.find w.store.cameras_ id with
    | none => simp [hf] at hne
    | some v =>
      rw [hf] at hne
      exact mem_heldInstances_of_find _ _ _ hf hne
  · intro id hne
    unfold GetStructure at hne ⊢
    cases hf : StdMap.find w.store.structures_ id with
    | none => simp [hf] at hne
    | some v =>
      rw [hf] at hne
      exact mem_heldInstances_of_find _ _ _ hf hne

/-- C9, the code at the failing input: after `InsertCamera(0, 7)` and
`InsertTrack(3, 9)` the store holds the camera 7 and the structure 9, and destroying the
store leaves both logs of released instances empty: neither instance is released. -/
theorem destructor_releases_nothing :
    GetCamera (run [Call.insertCamera 0 7, Call.insertTrack 3 9] World.fresh).store 0 = 7
    ∧ GetStructure (run [Call.insertCamera 0 7, Call.insertTrack 3 9] World.fresh).store 3 = 9
    ∧ destroyReconstruction (run [Call.insertCamera 0 7, Call.insertTrack 3 9] World.fresh)
        = ([], []) := by
  decide

/-- C8, witness: on the store reached by `InsertCamera(2, 5)`, `InsertCamera(1, 6)`,
`ClearCamerasMap()` releases 6 and 5, the cameras of the identifiers 1 and 2. -/
theorem clear_releases_every_entry_witness :
    (ClearCamerasMap (run [Call.insertCamera 2 5, Call.insertCamera 1 6]
        World.fresh)).deletedCameras = [6, 5]
    ∧ GetCamera (run [Call.insertCamera 2 5, Call.insertCamera 1 6] World.fresh).store 2
        ∈ heldInstances (run [Call.insertCamera 2 5, Call.insertCamera 1 6]
            World.fresh).store.cameras_ :=
  ⟨(clear_releases_every_entry (run [Call.insertCamera 2 5, Call.insertCamera 1 6]
      World.fresh)).1.1.trans (by decide),
    (clear_releases_every_entry (run [Call.insertCamera 2 5, Call.insertCamera 1 6]
      World.fresh)).1.2.2 2 (by decide)⟩

/-- C10: for distinct identifiers `id1`, `id2`, `InsertCamera(id1, p1)` followed by
`InsertCamera(id2, p2)` and the two insertions in the opposite order give the same
`GetCamera` and `ImageHasCamera` results for every identifier, the same
`GetNumberCameras()`, and the same released instances (the two logs are permutations of
one another, the log of structures is the same); likewise for `InsertTrack`. -/
theorem insert_order_irrelevant (w : World) (id1 id2 : Int) (p1 p2 : Ptr) (h : id1 ≠ id2) :
    ((∀ id, GetCamera (InsertCamera (InsertCamera w id1 p1) id2 p2).store id
          = GetCamera (InsertCamera (InsertCamera w id2 p2) id1 p1).store id)
      ∧ (∀ id, ImageHasCamera (InsertCamera (InsertCamera w id1 p1) id2 p2).store id
          = ImageHasCamera (InsertCamera (InsertCamera w id2 p2) id1 p1).store id)
      ∧ GetNumberCameras (InsertCamera (InsertCamera w id1 p1) id2 p2).store
          = GetNumberCameras (InsertCamera (InsertCamera w id2 p2) id1 p1).store
      ∧ (InsertCamera (InsertCamera w id1 p1) id2 p2).deletedCameras.Perm
          (InsertCamera (InsertCamera w id2 p2) id1 p1).deletedCameras
      ∧ (InsertCamera (InsertCamera w id1 p1) id2 p2).deletedStructures
          = (InsertCamera (InsertCamera w id2 p2) id1 p1).deletedStructures)
    ∧ ((∀ id, GetStructure (InsertTrack (InsertTrack w id1 p1) id2 p2).store id
          = GetStructure (InsertTrack (InsertTrack w id2 p2) id1 p1).store id)
      ∧ (∀ id, TrackHasStructure (InsertTrack (InsertTrack w id1 p1) id2 p2).store id
          = TrackHasStructure (InsertTrack (InsertTrack w id2 p2) id1 p1).store id)
      ∧ GetNumberStructures (InsertTrack (InsertTrack w id1 p1) id2 p2).store
          = GetNumberStructures (InsertTrack (InsertTrack w id2 p2) id1 p1).store
      ∧ (InsertTrack (InsertTrack w id1 p1) id2 p2).deletedStructures.Perm
          (InsertTrack (InsertTrack w id2 p2) id1 p1).deletedStructures
      ∧ (InsertTrack (InsertTrack w id1 p1) id2 p2).deletedCameras
          = (InsertTrack (InsertTrack w id2 p2) id1 p1).deletedCameras) := by
  have h' : id2 ≠ id1 := fun e => h e.symm
  refine ⟨⟨?_, ?_, ?_, ?_, ?_⟩, ⟨?_, ?_, ?_, ?_, ?_⟩⟩
  · intro id
    simp only [GetCamera, find_two_InsertCamera w id1 id2 id p1 p2 h]
  · intro id
    simp only [ImageHasCamera, find_two_InsertCamera w id1 id2 id p1 p2 h]
  · simp only [GetNumberCameras_InsertCamera, hasCamera_InsertCamera_of_ne _ _ _ _ h,
      hasCamera_InsertCamera_of_ne _ _ _ _ h']
    cases ImageHasCamera w.store id1 <;> cases ImageHasCamera w.store id2 <;> simp
  · simp only [InsertCamera_deletedCameras_append, find_InsertCamera, h, h', if_false]
    rw [List.perm_iff_count]
    intro a
    simp only [List.count_append]
    omega
  · simp only [InsertCamera_deletedStructures]
  · intro id
    simp only [GetStructure, find_two_InsertTrack w id1 id2 id p1 p2 h]
  · intro id
    simp only [TrackHasStructure, find_two_InsertTrack w id1 id2 id p1 p2 h]
  · simp only [GetNumberStructures_InsertTrack, hasStructure_InsertTrack_of_ne _ _ _ _ h,
      hasStructure_InsertTrack_of_ne _ _ _ _ h']
    cases TrackHasStructure w.store id1 <;> cases TrackHasStructure w.store id2 <;> simp
  · simp only [InsertTrack_deletedStructures_append, find_InsertTrack, h, h', if_false]
    rw [List.perm_iff_count]
    intro a
    simp only [List.count_append]
    omega
  · simp only [InsertTrack_deletedCameras]

/-- C10, witness: on the store reached by `InsertCamera(1, 5)`, `InsertCamera(2, 6)`,
replacing the cameras of 1 and 2 in either order releases 5 and 6, in the order of the
calls, and yields the same count. -/
theorem insert_order_irrelevant_witness :
    (1 : Int) ≠ 2
    ∧ (InsertCamera (InsertCamera (run [Call.insertCamera 1 5, Call.insertCamera 2 6]
        World.fresh) 1 7) 2 8).deletedCameras = [5, 6]
    ∧ (InsertCamera (InsertCamera (run [Call.insertCamera 1 5, Call.insertCamera 2 6]
        World.fresh) 2 8) 1 7).deletedCameras = [6, 5]
    ∧ (InsertCamera (InsertCamera (run [Call.insertCamera 1 5, Call.insertCamera 2 6]
        World.fresh) 1 7) 2 8).deletedCameras.Perm
        (InsertCamera (InsertCamera (run [Call.insertCamera 1 5, Call.insertCamera 2 6]
          World.fresh) 2 8) 1 7).deletedCameras
    ∧ GetNumberCameras (InsertCamera (InsertCamera (run [Call.insertCamera 1 5,
          Call.insertCamera 2 6] World.fresh) 1 7) 2 8).store
        = GetNumberCameras (InsertCamera (InsertCamera (run [Call.insertCamera 1 5,
          Call.insertCamera 2 6] World.fresh) 2 8) 1 7).store :=
  ⟨by decide, by decide, by decide,
    (insert_order_irrelevant (run [Call.insertCamera 1 5, Call.insertCamera 2 6]
      World.fresh) 1 2 7 8 (by decide)).1.2.2.2.1,
    (insert_order_irrelevant (run [Call.insertCamera 1 5, Call.insertCamera 2 6]
      World.fresh) 1 2 7 8 (by decide)).1.2.2.1⟩

/-! ## Refinement and frame lemmas -/

theorem run_append (cs : List Call) (c : Call) (w : World) :
    run (cs ++ [c]) w = c.exec (run cs w) := by
  induction cs generalizing w with
  | nil => rfl
  | cons d rest ih =>
    show run (rest ++ [c]) (d.exec w) = c.exec (run rest (d.exec w))
    exact ih (d.exec w)

theorem find_cameras_run (calls : List Call) (id : CameraID) :
    StdMap.find (run calls World.fresh).store.cameras_ id
      = lastCameraWrite id calls.reverse := by
  induction calls using List.reverseRecOn with
  | nil => rfl
  | append_singleton cs c ih =>
    rw [run_append, List.reverse_append, List.reverse_singleton, List.singleton_append]
    cases c with
    | insertCamera j camera =>
      simp only [Call.exec, find_InsertCamera, lastCameraWrite, ih]
      by_cases hj : id = j
      · subst hj; simp
      · have hj2 : ¬ j = id := fun e => hj e.symm
        simp [hj, hj2]
    | insertTrack j s =>
      simp only [Call.exec, InsertTrack_cameras, lastCameraWrite, ih]
    | clearCamerasMap => rfl
    | clearStructuresMap => simpa [Call.exec, ClearStructuresMap, lastCameraWrite] using ih

theorem find_structures_run (calls : List Call) (id : StructureID) :
    StdMap.find (run calls World.fresh).store.structures_ id
      = lastStructureWrite id calls.reverse := by
  induction calls using List.reverseRecOn with
  | nil => rfl
  | append_singleton cs c ih =>
    rw [run_append, List.reverse_append, List.reverse_singleton, List.singleton_append]
    cases c with
    | insertTrack j s =>
      simp only [Call.exec, find_InsertTrack, lastStructureWrite, ih]
      by_cases hj : id = j
      · subst hj; simp
      · have hj2 : ¬ j = id := fun e => hj e.symm
        simp [hj, hj2]
    | insertCamera j camera =>
      simp only [Call.exec, InsertCamera_structures, lastStructureWrite, ih]
    | clearStructuresMap => rfl
    | clearCamerasMap => simpa [Call.exec, ClearCamerasMap, lastStructureWrite] using ih

theorem InsertCamera_matches (w : World) (id : CameraID) (c : Ptr) :
    (InsertCamera w id c).store.matches_ = w.store.matches_ := by
  unfold InsertCamera; split <;> rfl

theorem InsertTrack_matches (w : World) (id : StructureID) (s : Ptr) :
    (InsertTrack w id s).store.matches_ = w.store.matches_ := by
  unfold InsertTrack; split <;> rfl

theorem not_mem_releasedByInsert (found : Option Ptr) (q : Ptr)
    (h : ∀ old, found = some old → q ≠ old) : q ∉ releasedByInsert found := by
  cases found with
  | none => simp [releasedByInsert]
  | some old =>
    have := h old rfl
    simp only [releasedByInsert, pointee]
    split <;> simp [this]

/-! ## The claims: refinement and frame -/

/-- C15: after every finite sequence of calls applied to the empty store, `GetCamera(id)`
returns the camera passed to the most recent `InsertCamera(id, ·)` that comes after the
most recent `ClearCamerasMap()`, and `NULL` if there is none, and `ImageHasCamera(id)` is
true exactly when there is such an insertion; likewise `GetStructure` and
`TrackHasStructure` with `InsertTrack` and `ClearStructuresMap`. -/
theorem store_refines_last_write_wins (calls : List Call) (id : Int) :
    (GetCamera (run calls World.fresh).store id = specGetCamera calls id
      ∧ ImageHasCamera (run calls World.fresh).store id = specImageHasCamera calls id)
    ∧ (GetStructure (run calls World.fresh).store id = specGetStructure calls id
      ∧ TrackHasStructure (run calls World.fresh).store id
          = specTrackHasStructure calls id) := by
  simp only [GetCamera, ImageHasCamera, GetStructure, TrackHasStructure, specGetCamera,
    specImageHasCamera, specGetStructure, specTrackHasStructure, find_cameras_run,
    find_structures_run, and_self]

/-- C16, counterexample: in the store reached by `InsertCamera(0, 7)`,
`InsertCamera(1, 7)` the instance 7 is stored under the identifier 1, nothing has been
released, and `InsertCamera(0, 8)` releases 7. -/
theorem insert_releases_instance_shared_with_other_key :
    (0 : Int) ≠ 1
    ∧ GetCamera (run [Call.insertCamera 0 7, Call.insertCamera 1 7] World.fresh).store 1 = 7
    ∧ (run [Call.insertCamera 0 7, Call.insertCamera 1 7] World.fresh).deletedCameras = []
    ∧ (InsertCamera (run [Call.insertCamera 0 7, Call.insertCamera 1 7] World.fresh)
        0 8).deletedCameras = [7] := by
  decide

/-- C16 (amended): for identifiers `id ≠ id2`, `InsertCamera(id, c)` leaves
`GetCamera(id2)` and `ImageHasCamera(id2)` unchanged, and what it releases does not
contain the instance stored under `id2` unless that same instance was also stored under
`id`; likewise `InsertTrack` for structures. -/
theorem insert_touches_only_its_key (w : World) (id id2 : Int) (c : Ptr) (h : id ≠ id2) :
    (GetCamera (InsertCamera w id c).store id2 = GetCamera w.store id2
      ∧ ImageHasCamera (InsertCamera w id c).store id2 = ImageHasCamera w.store id2
      ∧ (GetCamera w.store id2 ≠ GetCamera w.store id →
          ∃ released, (InsertCamera w id c).deletedCameras = w.deletedCameras ++ released
            ∧ GetCamera w.store id2 ∉ released))
    ∧ (GetStructure (InsertTrack w id c).store id2 = GetStructure w.store id2
      ∧ TrackHasStructure (InsertTrack w id c).store id2 = TrackHasStructure w.store id2
      ∧ (GetStructure w.store id2 ≠ GetStructure w.store id →
          ∃ released, (InsertTrack w id c).deletedStructures
              = w.deletedStructures ++ released
            ∧ GetStructure w.store id2 ∉ released)) := by
  have h' : id2 ≠ id := fun e => h e.symm
  refine ⟨⟨?_, ?_, ?_⟩, ⟨?_, ?_, ?_⟩⟩
  · simp [GetCamera, find_InsertCamera, h']
  · exact hasCamera_InsertCamera_of_ne w id id2 c h'
  · intro hne
    refine ⟨_, InsertCamera_deletedCameras_append w id c, ?_⟩
    apply not_mem_releasedByInsert
    intro old hold
    simpa [GetCamera, hold] using hne
  · simp [GetStructure, find_InsertTrack, h']
  · exact hasStructure_InsertTrack_of_ne w id id2 c h'
  · intro hne
    refine ⟨_, InsertTrack_deletedStructures_append w id c, ?_⟩
    apply not_mem_releasedByInsert
    intro old hold
    simpa [GetStructure, hold] using hne

/-- C16, witness: in the store reached by `InsertCamera(0, 7)`, `InsertCamera(1, 9)`,
`InsertCamera(0, 8)` keeps the camera 9 of the identifier 1. -/
theorem insert_touches_only_its_key_witness :
    (0 : Int) ≠ 1
    ∧ GetCamera (InsertCamera (run [Call.insertCamera 0 7, Call.insertCamera 1 9]
        World.fresh) 0 8).store 1 = 9 :=
  ⟨by decide,
    ((insert_touches_only_its_key (run [Call.insertCamera 0 7, Call.insertCamera 1 9]
      World.fresh) 0 1 8 (by decide)).1.1).trans (by decide)⟩

/-- C17: `InsertCamera` and `ClearCamerasMap` leave every `GetStructure` and
`TrackHasStructure` result, `GetNumberStructures()` and `matches()` unchanged and release
no structure; `InsertTrack` and `ClearStructuresMap` leave every `GetCamera` and
`ImageHasCamera` result, `GetNumberCameras()` and `matches()` unchanged and release no
camera. -/
theorem maps_and_matches_independent (w : World) (id : Int) (p : Ptr) :
    (((∀ j, GetStructure (InsertCamera w id p).store j = GetStructure w.store j)
        ∧ (∀ j, TrackHasStructure (InsertCamera w id p).store j
            = TrackHasStructure w.store j)
        ∧ GetNumberStructures (InsertCamera w id p).store = GetNumberStructures w.store
        ∧ matchesOf (InsertCamera w id p).store = matchesOf w.store
        ∧ (InsertCamera w id p).deletedStructures = w.deletedStructures)
      ∧ ((∀ j, GetStructure (ClearCamerasMap w).store j = GetStructure w.store j)
        ∧ (∀ j, TrackHasStructure (ClearCamerasMap w).store j = TrackHasStructure w.store j)
        ∧ GetNumberStructures (ClearCamerasMap w).store = GetNumberStructures w.store
        ∧ matchesOf (ClearCamerasMap w).store = matchesOf w.store
        ∧ (ClearCamerasMap w).deletedStructures = w.deletedStructures))
    ∧ (((∀ j, GetCamera (InsertTrack w id p).store j = GetCamera w.store j)
        ∧ (∀ j, ImageHasCamera (InsertTrack w id p).store j = ImageHasCamera w.store j)
        ∧ GetNumberCameras (InsertTrack w id p).store = GetNumberCameras w.store
        ∧ matchesOf (InsertTrack w id p).store = matchesOf w.store
        ∧ (InsertTrack w id p).deletedCameras = w.deletedCameras)
      ∧ ((∀ j, GetCamera (ClearStructuresMap w).store j = GetCamera w.store j)
        ∧ (∀ j, ImageHasCamera (ClearStructuresMap w).store j = ImageHasCamera w.store j)
        ∧ GetNumberCameras (ClearStructuresMap w).store = GetNumberCameras w.store
        ∧ matchesOf (ClearStructuresMap w).store = matchesOf w.store
        ∧ (ClearStructuresMap w).deletedCameras = w.deletedCameras)) := by
  refine ⟨⟨⟨?_, ?_, ?_, ?_, ?_⟩, ⟨fun j => rfl, fun j => rfl, rfl, rfl, rfl⟩⟩,
    ⟨⟨?_, ?_, ?_, ?_, ?_⟩, ⟨fun j => rfl, fun j => rfl, rfl, rfl, rfl⟩⟩⟩
  · intro j; simp only [GetStructure, InsertCamera_structures]
  · intro j; simp only [TrackHasStructure, InsertCamera_structures]
  · simp only [GetNumberStructures, InsertCamera_structures]
  · simp only [matchesOf, InsertCamera_matches]
  · exact InsertCamera_deletedStructures w id p
  · intro j; simp only [GetCamera, InsertTrack_cameras]
  · intro j; simp only [ImageHasCamera, InsertTrack_cameras]
  · simp only [GetNumberCameras, InsertTrack_cameras]
  · simp only [matchesOf, InsertTrack_matches]
  · exact InsertTrack_deletedCameras w id p

/-! ## The claims: keys and the correspondence set -/

theorem exec_matches (c : Call) (w : World) :
    (c.exec w).store.matches_ = w.store.matches_ := by
  cases c with
  | insertCamera id camera => exact InsertCamera_matches w id camera
  | insertTrack id s => exact InsertTrack_matches w id s
  | clearCamerasMap => rfl
  | clearStructuresMap => rfl

theorem KeysInMatches_exec (c : Call) (w : World) (hw : KeysInMatches w.store)
    (hc : c.idInMatches w.store.matches_ = true) : KeysInMatches (c.exec w).store := by
  obtain ⟨hcam, hstr⟩ := hw
  cases c with
  | insertCamera id camera =>
    constructor
    · intro j hj
      simp only [Call.exec, InsertCamera_matches]
      by_cases hji : j = id
      · rw [hji]; exact hc
      · simp only [Call.exec, hasCamera_InsertCamera_of_ne w id j camera hji] at hj
        exact hcam j hj
    · intro j hj
      simp only [Call.exec, TrackHasStructure, InsertCamera_structures] at hj
      simp only [Call.exec, InsertCamera_matches]
      exact hstr j hj
  | insertTrack id s =>
    constructor
    · intro j hj
      simp only [Call.exec, ImageHasCamera, InsertTrack_cameras] at hj
      simp only [Call.exec, InsertTrack_matches]
      exact hcam j hj
    · intro j hj
      simp only [Call.exec, InsertTrack_matches]
      by_cases hji : j = id
      · rw [hji]; exact hc
      · simp only [Call.exec, hasStructure_InsertTrack_of_ne w id j s hji] at hj
        exact hstr j hj
  | clearCamerasMap =>
    constructor
    · intro j hj
      simp [Call.exec, ClearCamerasMap, ImageHasCamera, StdMap.clear, StdMap.find] at hj
    · exact hstr
  | clearStructuresMap =>
    constructor
    · exact hcam
    · intro j hj
      simp [Call.exec, ClearStructuresMap, TrackHasStructure, StdMap.clear, StdMap.find] at hj

/-- C11, counterexample: `InsertCamera(0, camera0)` on the empty store, as the test
does, leaves the key 0 in the camera map while `matches_` records no image at all. -/
theorem camera_key_absent_from_matches :
    ¬ KeysInMatches (run [Call.insertCamera 0 7] World.fresh).store := by
  intro h
  exact absurd (h.1 0 (by decide)) (by decide)

/-- C11 (amended): starting from a store that satisfies invariant (a), every sequence of
`InsertCamera` and `InsertTrack` calls (and of clearing calls) whose identifiers exist in
the store's correspondence set `matches_` leads to a store in which each key of the camera
map is an image identifier of `matches_` and each key of the structure map is a track
identifier of it. -/
theorem keys_exist_in_matches (w : World) (calls : List Call)
    (hw : KeysInMatches w.store)
    (hcalls : ∀ c ∈ calls, c.idInMatches w.store.matches_ = true) :
    KeysInMatches (run calls w).store := by
  induction calls generalizing w with
  | nil => exact hw
  | cons c rest ih =>
    have hc := hcalls c (List.mem_cons_self _ _)
    apply ih (c.exec w) (KeysInMatches_exec c w hw hc)
    intro d hd
    rw [exec_matches]
    exact hcalls d (List.mem_cons_of_mem _ hd)

/-- C11, witness: with one observation of track 3 in image 0 in `matches_` and empty
maps, `InsertCamera(0, 7)` and `InsertTrack(3, 9)` keep invariant (a), and the keys are
present. -/
theorem keys_exist_in_matches_witness :
    KeysInMatches (run [Call.insertCamera 0 7, Call.insertTrack 3 9]
        { World.fresh with store := { World.fresh.store with
            matches_ := { observations := [((0, 3), 100)] } } }).store
    ∧ ImageHasCamera (run [Call.insertCamera 0 7, Call.insertTrack 3 9]
        { World.fresh with store := { World.fresh.store with
            matches_ := { observations := [((0, 3), 100)] } } }).store 0 = true
    ∧ TrackHasStructure (run [Call.insertCamera 0 7, Call.insertTrack 3 9]
        { World.fresh with store := { World.fresh.store with
            matches_ := { observations := [((0, 3), 100)] } } }).store 3 = true :=
  ⟨keys_exist_in_matches _ [Call.insertCamera 0 7, Call.insertTrack 3 9]
      ⟨fun id h => by simp [ImageHasCamera, World.fresh, StdMap.find] at h,
        fun id h => by simp [TrackHasStructure, World.fresh, StdMap.find] at h⟩ (by decide),
    by decide, by decide⟩

/-! ## Lemmas on the two-view bootstrap -/

theorem le_foldl_max (l : List Nat) (a x : Nat) (h : x ∈ l ∨ x ≤ a) :
    x ≤ l.foldl max a := by
  induction l generalizing a with
  | nil =>
    rcases h with h | h
    · simp at h
    · exact h
  | cons y rest ih =>
    simp only [List.foldl_cons]
    apply ih
    rcases h with h | h
    · rcases List.mem_cons.mp h with h1 | h1
      · right; rw [h1]; exact le_max_right a y
      · left; exact h1
    · right; exact le_trans h (le_max_left a y)

theorem GetCamera_lt_newAddress {Cam : Type} (s : Scene Cam) (id : CameraID) :
    GetCamera s.world.store id < s.newAddress := by
  unfold GetCamera Scene.newAddress
  cases hf : StdMap.find s.world.store.cameras_ id with
  | none => simp [NULL]
  | some v =>
    have hmem : v ∈ s.cameraObjects.map Prod.fst ++ s.world.store.cameras_.map Prod.snd := by
      apply List.mem_append_right
      exact List.mem_map.mpr ⟨(id, v), StdMap.find_mem _ _ _ hf, rfl⟩
    have hle := le_foldl_max _ 0 v (Or.inl hmem)
    exact Nat.lt_of_le_of_lt hle (Nat.lt_add_of_pos_left Nat.one_pos)

theorem cameraAt_createAndInsert {Cam : Type} (s : Scene Cam) (id : CameraID) (cam : Cam)
    (p : Ptr) (hp : p ≠ s.newAddress) :
    (s.createAndInsert id cam).cameraAt p = s.cameraAt p := by
  simp [Scene.createAndInsert, Scene.cameraAt, objectAt, hp]

theorem StdMap.find_none_of_single (m : StdMap) (id1 id2 : Int) (hlen : m.length = 1)
    (h1 : (StdMap.find m id1).isSome = true) (hne : id1 ≠ id2) :
    StdMap.find m id2 = none := by
  match m, hlen with
  | [(k, v)], _ =>
    by_cases hk : id1 = k
    · have hk2 : ¬ id2 = k := fun e => hne (hk.trans e.symm)
      simp [StdMap.find, hk2]
    · simp [StdMap.find, hk] at h1

theorem calibrated_ok_inv {F Motion K Cam : Type} (ext : TwoViewCollaborators F Motion K Cam)
    (m : Matches) (id1 id2 : CameraID) (K1 K2 : K) (s s1 : Scene Cam) (inliers : Matches)
    (hhas : ImageHasCamera s.world.store id1 = true)
    (hok : ReconstructFromTwoCalibratedViews ext m id1 id2 K1 K2 s = .ok (inliers, s1)) :
    ∃ cam, s1 = s.createAndInsert id2 cam := by
  unfold ReconstructFromTwoCalibratedViews at hok
  split at hok
  · cases hok
  · simp only at hok
    split at hok
    · cases hok
    · injection hok with hok
      injection hok with _ hs
      exact ⟨_, hs.symm⟩

/-! ## The claims: two-view bootstrap -/

/-- C12: for every match table and image pair with fewer than 7 common correspondences,
`ReconstructFromTwoUncalibratedViews` and `ReconstructFromTwoCalibratedViews` fail with
`InsufficientCorrespondences` (they return `false`); with exactly 7 the estimation is
attempted: the uncalibrated function succeeds with the inliers of the robust estimate,
and the calibrated one succeeds with them or fails with `NoGeometricSolution` according
to whether a relative motion is found. -/
theorem two_view_minimal_data {F Motion K Cam : Type}
    (ext : TwoViewCollaborators F Motion K Cam) (m : Matches) (id1 id2 : CameraID)
    (K1 K2 : K) (s : Scene Cam) :
    ((m.commonTracks id1 id2).length < 7 →
        ReconstructFromTwoUncalibratedViews ext m id1 id2 s
          = .error .InsufficientCorrespondences
        ∧ returnedBool (ReconstructFromTwoUncalibratedViews ext m id1 id2 s) = false
        ∧ ReconstructFromTwoCalibratedViews ext m id1 id2 K1 K2 s
          = .error .InsufficientCorrespondences
        ∧ returnedBool (ReconstructFromTwoCalibratedViews ext m id1 id2 K1 K2 s) = false)
    ∧ ((m.commonTracks id1 id2).length = 7 →
        (∃ s1, ReconstructFromTwoUncalibratedViews ext m id1 id2 s
          = .ok ((ext.estimateFundamental m id1 id2).2, s1))
        ∧ (ext.relativeMotion (ext.estimateFundamental m id1 id2).1 K1 K2 = none →
            ReconstructFromTwoCalibratedViews ext m id1 id2 K1 K2 s
              = .error .NoGeometricSolution)
        ∧ (∀ motion,
            ext.relativeMotion (ext.estimateFundamental m id1 id2).1 K1 K2 = some motion →
            ∃ s1, ReconstructFromTwoCalibratedViews ext m id1 id2 K1 K2 s
              = .ok ((ext.estimateFundamental m id1 id2).2, s1))) := by
  constructor
  · intro hlt
    simp [ReconstructFromTwoUncalibratedViews, ReconstructFromTwoCalibratedViews, hlt,
      returnedBool]
  · intro h7
    have hge : ¬ (m.commonTracks id1 id2).length < 7 := by omega
    refine ⟨?_, ?_, ?_⟩
    · simp only [ReconstructFromTwoUncalibratedViews, hge, if_false]
      exact ⟨_, rfl⟩
    · intro hnone
      simp only [ReconstructFromTwoCalibratedViews, hge, if_false, hnone]
    · intro motion hsome
      simp only [ReconstructFromTwoCalibratedViews, hge, if_false, hsome]
      exact ⟨_, rfl⟩

/-- C12, witness: with the tracks 0 to 5 common to the images 0 and 1 (exactly 6) both
functions fail with `InsufficientCorrespondences`; with the tracks 0 to 6 (exactly 7)
the uncalibrated function yields a result. -/
theorem two_view_minimal_data_witness :
    ((Matches.commonTracks { observations := twoViewObservations 6 } 0 1).length = 6
      ∧ ReconstructFromTwoUncalibratedViews exampleCollaborators
          { observations := twoViewObservations 6 } 0 1 (exampleScene [])
        = .error .InsufficientCorrespondences
      ∧ ReconstructFromTwoCalibratedViews exampleCollaborators
          { observations := twoViewObservations 6 } 0 1 () () (exampleScene [])
        = .error .InsufficientCorrespondences)
    ∧ ((Matches.commonTracks { observations := twoViewObservations 7 } 0 1).length = 7
      ∧ ∃ s1, ReconstructFromTwoUncalibratedViews exampleCollaborators
          { observations := twoViewObservations 7 } 0 1 (exampleScene [])
        = .ok ({ observations := twoViewObservations 7 }, s1)) :=
  ⟨⟨by decide,
      ((two_view_minimal_data exampleCollaborators { observations := twoViewObservations 6 }
        0 1 () () (exampleScene [])).1 (by decide)).1,
      ((two_view_minimal_data exampleCollaborators { observations := twoViewObservations 6 }
        0 1 () () (exampleScene [])).1 (by decide)).2.2.1⟩,
    ⟨by decide,
      ((two_view_minimal_data exampleCollaborators { observations := twoViewObservations 7 }
        0 1 () () (exampleScene [])).2 (by decide)).1⟩⟩

/-- C13, counterexample: when the store holds a camera for image 0 and another one for
image 5, the calibrated bootstrap on the images 0 and 1 succeeds and the store then holds
3 cameras, not 2. -/
theorem calibrated_bootstrap_three_cameras :
    ImageHasCamera (exampleScene [(0, 10), (5, 11)]).world.store 0 = true
    ∧ (ReconstructFromTwoCalibratedViews exampleCollaborators
        { observations := twoViewObservations 7 } 0 1 () ()
        (exampleScene [(0, 10), (5, 11)])).toOption.map
          (fun r => GetNumberCameras r.2.world.store) = some 3 := by
  decide

/-- C13 (amended): when the store holds a camera for the first image and no other
camera, a successful `ReconstructFromTwoCalibratedViews` on two distinct images leaves
the pointer of that camera and the content of the camera object (hence its orientation
and position) exactly unchanged, changes the camera map at the second image only, where
it adds a camera, and the store then holds exactly 2 cameras. -/
theorem calibrated_bootstrap_fixes_gauge {F Motion K Cam : Type}
    (ext : TwoViewCollaborators F Motion K Cam) (m : Matches) (id1 id2 : CameraID)
    (K1 K2 : K) (s s1 : Scene Cam) (inliers : Matches)
    (hne : id1 ≠ id2)
    (hhas : ImageHasCamera s.world.store id1 = true)
    (honly : GetNumberCameras s.world.store = 1)
    (hok : ReconstructFromTwoCalibratedViews ext m id1 id2 K1 K2 s = .ok (inliers, s1)) :
    GetCamera s1.world.store id1 = GetCamera s.world.store id1
    ∧ s1.cameraAt (GetCamera s.world.store id1) = s.cameraAt (GetCamera s.world.store id1)
    ∧ (∀ id, id ≠ id2 →
        ImageHasCamera s1.world.store id = ImageHasCamera s.world.store id
        ∧ GetCamera s1.world.store id = GetCamera s.world.store id)
    ∧ ImageHasCamera s.world.store id2 = false
    ∧ ImageHasCamera s1.world.store id2 = true
    ∧ GetNumberCameras s1.world.store = 2 := by
  obtain ⟨cam, hs1⟩ := calibrated_ok_inv ext m id1 id2 K1 K2 s s1 inliers hhas hok
  subst hs1
  have habsent : ImageHasCamera s.world.store id2 = false := by
    unfold ImageHasCamera at hhas ⊢
    rw [StdMap.find_none_of_single _ id1 id2 honly hhas hne]
    rfl
  have hframe : ∀ id, id ≠ id2 →
      ImageHasCamera (s.createAndInsert id2 cam).world.store id
          = ImageHasCamera s.world.store id
        ∧ GetCamera (s.createAndInsert id2 cam).world.store id
          = GetCamera s.world.store id := by
    intro id hid
    constructor
    · exact hasCamera_InsertCamera_of_ne s.world id2 id s.newAddress hid
    · simp [Scene.createAndInsert, GetCamera, find_InsertCamera, hid]
  refine ⟨(hframe id1 hne).2, ?_, hframe, habsent, ?_, ?_⟩
  · exact cameraAt_createAndInsert s id2 cam _ (ne_of_lt (GetCamera_lt_newAddress s id1))
  · simp [Scene.createAndInsert, ImageHasCamera, find_InsertCamera]
  · simp only [Scene.createAndInsert, GetNumberCameras_InsertCamera, habsent, honly]
    simp

/-- C13, witness: from the store that holds the camera at address 10 for image 0 and
nothing else, with 7 tracks common to the images 0 and 1, the bootstrap succeeds, image 0
keeps the camera at address 10 with its content 5, and the store holds 2 cameras. -/
theorem calibrated_bootstrap_fixes_gauge_witness :
    GetCamera ((exampleScene [(0, 10)]).createAndInsert 1 1).world.store 0 = 10
    ∧ ((exampleScene [(0, 10)]).createAndInsert 1 1).cameraAt 10 = some 5
    ∧ GetNumberCameras ((exampleScene [(0, 10)]).createAndInsert 1 1).world.store = 2 :=
  ⟨(calibrated_bootstrap_fixes_gauge exampleCollaborators
      { observations := twoViewObservations 7 } 0 1 () () (exampleScene [(0, 10)])
      ((exampleScene [(0, 10)]).createAndInsert 1 1)
      { observations := twoViewObservations 7 } (by decide) (by decide) (by decide)
      (by rfl)).1.trans (by decide),
    (calibrated_bootstrap_fixes_gauge exampleCollaborators
      { observations := twoViewObservations 7 } 0 1 () () (exampleScene [(0, 10)])
      ((exampleScene [(0, 10)]).createAndInsert 1 1)
      { observations := twoViewObservations 7 } (by decide) (by decide) (by decide)
      (by rfl)).2.1.trans (by decide),
    (calibrated_bootstrap_fixes_gauge exampleCollaborators
      { observations := twoViewObservations 7 } 0 1 () () (exampleScene [(0, 10)])
      ((exampleScene [(0, 10)]).createAndInsert 1 1)
      { observations := twoViewObservations 7 } (by decide) (by decide) (by decide)
      (by rfl)).2.2.2.2.2⟩

end libmv
